import Mathlib

/-!
Verification of the AMTP Python SDK core (amtp/agent.py, amtp/message.py,
amtp/schema.py) against its specification.  Python code is shallowly embedded:
stateful methods become explicit state-passing functions, raised exceptions
become `Except`/`Option` results, and the nondeterministic pieces (UUID
generators, wall-clock time, the network) become explicit parameters.
-/

set_option maxRecDepth 40000

namespace AMTP

/-! ## Transport layer: `AMTP._request` (agent.py 389-442) -/

/-- What one iteration of the retry loop in `_request` observes: the HTTP
request either raises `aiohttp.ClientError`, raises `asyncio.TimeoutError`, or
yields a response with a status code and a parsed body. -/
inductive AttemptOutcome where
  | netError
  | timeout
  | http (status : Nat) (body : String)
  deriving DecidableEq, Repr

/-- The distinct `raise Error(...)` sites of `_request` (agent.py 424-441), one
constructor per site. -/
inductive ReqError where
  | badRequest
  | authFailed
  | notFound
  | rateLimited
  | httpOther (status : Nat)
  | requestFailed
  | timedOut
  deriving DecidableEq, Repr

/-- What `_request` produces for its caller: a raised error, or a Python return
value, which is `none` exactly when the retry loop body never ran and the
function fell through to its implicit `return None`. -/
inductive ReqResult where
  | raised (e : ReqError)
  | returned (v : Option String)
  deriving DecidableEq, Repr

/-- The status dispatch of `_request` (agent.py 421-433): 200/201/202 return the
body, other statuses raise a classified error. -/
def classifyStatus (status : Nat) (body : String) : Except ReqError String :=
  if status = 200 ∨ status = 201 ∨ status = 202 then .ok body
  else if status = 400 then .error .badRequest
  else if status = 401 then .error .authFailed
  else if status = 404 then .error .notFound
  else if status = 429 then .error .rateLimited
  else .error (.httpOther status)

/-- The retry loop `for attempt in range(max_retries)` of `_request`
(agent.py 406-442).  `attempt` is the current loop index, `fuel` the number of
iterations left; a connection-level failure on the last attempt
(`attempt == max_retries - 1`) raises, otherwise the loop sleeps
`retry_delay * (2 ** attempt)` and continues.  Returns the result, the list of
backoff sleeps performed (in order), and the number of attempts made. -/
def requestLoop (retryDelay : ℚ) (maxRetries : ℤ) (outcomes : ℕ → AttemptOutcome) :
    ℕ → ℕ → ReqResult × List ℚ × ℕ
  | _, 0 => (.returned none, [], 0)
  | attempt, fuel + 1 =>
    match outcomes attempt with
    | .http status body =>
      match classifyStatus status body with
      | .ok b => (.returned (some b), [], 1)
      | .error e => (.raised e, [], 1)
    | .netError =>
      if (attempt : ℤ) = maxRetries - 1 then (.raised .requestFailed, [], 1)
      else
        let r := requestLoop retryDelay maxRetries outcomes (attempt + 1) fuel
        (r.1, retryDelay * 2 ^ attempt :: r.2.1, r.2.2 + 1)
    | .timeout =>
      if (attempt : ℤ) = maxRetries - 1 then (.raised .timedOut, [], 1)
      else
        let r := requestLoop retryDelay maxRetries outcomes (attempt + 1) fuel
        (r.1, retryDelay * 2 ^ attempt :: r.2.1, r.2.2 + 1)

/-- `AMTP._request` (agent.py 389-442) with the network abstracted as the
per-attempt outcome function; `max_retries` is kept as an integer because the
configuration bag does not constrain its sign, and `range(n)` of a nonpositive
`n` is empty. -/
def request (retryDelay : ℚ) (maxRetries : ℤ) (outcomes : ℕ → AttemptOutcome) :
    ReqResult × List ℚ × ℕ :=
  requestLoop retryDelay maxRetries outcomes 0 maxRetries.toNat

/-- An outcome is a connection-level failure: one of the two exception classes
caught by the retry loop's `except` clauses. -/
def AttemptOutcome.isConnFail : AttemptOutcome → Bool
  | .netError => true
  | .timeout => true
  | .http _ _ => false

/-- The error `_request` raises when the final attempt fails at the connection
level (agent.py 436-437 and 440-441). -/
def connFailErr : AttemptOutcome → ReqError
  | .netError => .requestFailed
  | .timeout => .timedOut
  | .http _ _ => .requestFailed

/-! ## Session lifecycle: `AMTP.connect` / `register` / `unregister` / `stop`
(agent.py 83-163 and 306-322) -/

/-- The session-lifecycle state of an `AMTP` object: `hasSession` is
`self._session is not None`, the other fields are `self._registered`,
`self._running`, `self.api_key` and `self.address` (agent.py 52-74). -/
structure SessionState where
  hasSession : Bool
  registered : Bool
  running : Bool
  api_key : Option String
  address : String
  deriving DecidableEq, Repr

/-- The registration response body as `register` reads it (agent.py 130-141):
the nested `agent` object's `api_key` and `address`, and the top-level
`api_key`/`token`/`access_token` fallbacks.  `none` models an absent (or falsy)
key, matching the `or`-chain in the source. -/
structure RegResponse where
  agentApiKey : Option String
  agentAddress : Option String
  apiKey : Option String
  token : Option String
  accessToken : Option String
  deriving DecidableEq, Repr

/-- The outcomes the network hands a single lifecycle call: whether the
`GET /health` issued by an implicit `connect` succeeds, whether the operation's
own request succeeds, and the registration response body when it applies. -/
structure TransportEnv where
  healthOk : Bool
  registerResp : Option RegResponse
  unregisterOk : Bool
  deriving Repr

/-- `AMTP.connect` (agent.py 83-110): a no-op when a session already exists;
otherwise it creates the session, issues `GET /health`, and on failure closes
the half-open session and raises.  Returns the new state, the number of
transport requests issued, and whether the call raised. -/
def connect (env : TransportEnv) (st : SessionState) : SessionState × ℕ × Bool :=
  if st.hasSession then (st, 0, false)
  else if env.healthOk then ({ st with hasSession := true }, 1, false)
  else ({ st with hasSession := false }, 1, true)

/-- `AMTP.register` (agent.py 119-149): a no-op when already registered;
otherwise `POST /v1/admin/agents` (connecting first inside `_request` when no
session exists, agent.py 394-395), then adopt the returned api key (by the
source's `or`-chain precedence) and full address, and set the flag; any failure
is re-raised as a registration error. -/
def register (env : TransportEnv) (st : SessionState) : SessionState × ℕ × Bool :=
  if st.registered then (st, 0, false)
  else if !st.hasSession && !env.healthOk then ({ st with hasSession := false }, 1, true)
  else
    let st1 := { st with hasSession := true }
    let n := if st.hasSession then 1 else 2
    match env.registerResp with
    | none => (st1, n, true)
    | some r =>
      ({ st1 with
          api_key := r.agentApiKey <|> r.apiKey <|> r.token <|> r.accessToken <|> st.api_key
          address := r.agentAddress.getD st.address
          registered := true }, n, false)

/-- `AMTP.unregister` (agent.py 151-163): a no-op when not registered; otherwise
`DELETE /v1/admin/agents/{name}` with every failure caught and logged.  Note
that `self._registered = False` sits inside the `try` after the request, so the
flag is cleared only when the request succeeded. -/
def unregister (env : TransportEnv) (st : SessionState) : SessionState × ℕ × Bool :=
  if !st.registered then (st, 0, false)
  else if !st.hasSession && !env.healthOk then ({ st with hasSession := false }, 1, false)
  else
    let st1 := { st with hasSession := true }
    let n := if st.hasSession then 1 else 2
    if env.unregisterOk then ({ st1 with registered := false }, n, false)
    else (st1, n, false)

/-- `AMTP.stop` (agent.py 306-322): a no-op when not running; otherwise clear
the running flag, best-effort `unregister` when registered (exceptions logged),
then `close` the session. -/
def stop (env : TransportEnv) (st : SessionState) : SessionState × ℕ × Bool :=
  if !st.running then (st, 0, false)
  else
    let st1 : SessionState := { st with running := false }
    let r := if st1.registered then unregister env st1 else (st1, 0, false)
    ({ r.1 with hasSession := false }, r.2.1, false)

/-! ## Message model: `amtp/message.py`

Timestamps (`datetime.datetime` values and their ISO-8601 strings) are modelled
structurally; strings are handled as `List Char` throughout, matching Python's
character-wise string operations. -/

/-- A decimal digit as a character; arguments are always reduced mod 10 at the
call sites, so the catch-all is never reached. -/
def digitChar : ℕ → Char
  | 0 => '0' | 1 => '1' | 2 => '2' | 3 => '3' | 4 => '4'
  | 5 => '5' | 6 => '6' | 7 => '7' | 8 => '8' | 9 => '9'
  | _ => '*'

/-- Zero-padded two-digit decimal rendering, as `datetime.isoformat` uses for
month, day, hour, minute, second and offset components. -/
def pad2 (n : ℕ) : List Char := [digitChar (n / 10 % 10), digitChar (n % 10)]

/-- Zero-padded four-digit year. -/
def pad4 (n : ℕ) : List Char :=
  [digitChar (n / 1000 % 10), digitChar (n / 100 % 10), digitChar (n / 10 % 10),
   digitChar (n % 10)]

/-- Zero-padded six-digit microsecond field. -/
def pad6 (n : ℕ) : List Char := pad2 (n / 10000) ++ pad2 (n / 100 % 100) ++ pad2 (n % 100)

/-- A `datetime.datetime` restricted to what the SDK touches: microsecond
precision and an optional fixed utcoffset in minutes (`none` = a naive
datetime).  Equality is structural; it refines Python's `==` on values that
round-trip through the same offset. -/
structure PyDatetime where
  year : ℕ
  month : ℕ
  day : ℕ
  hour : ℕ
  minute : ℕ
  second : ℕ
  microsecond : ℕ
  utcoffsetMinutes : Option ℤ
  deriving DecidableEq, Repr

/-- The invariants `datetime.datetime` guarantees for its fields, as far as the
padded rendering needs them (the real constructor enforces tighter calendar
bounds, and `timezone` keeps offsets strictly below 24 hours). -/
def PyDatetime.wf (d : PyDatetime) : Prop :=
  d.year < 10000 ∧ d.month < 100 ∧ d.day < 100 ∧ d.hour < 100 ∧ d.minute < 100 ∧
    d.second < 100 ∧ d.microsecond < 1000000 ∧
    ∀ off ∈ d.utcoffsetMinutes, off.natAbs < 6000

instance (d : PyDatetime) : Decidable d.wf := by
  unfold PyDatetime.wf; infer_instance

/-- The `±HH:MM` suffix `datetime.isoformat` appends for an aware datetime. -/
def tzChars : Option ℤ → List Char
  | none => []
  | some off =>
    (if off < 0 then '-' else '+') ::
      (pad2 (off.natAbs / 60) ++ ':' :: pad2 (off.natAbs % 60))

/-- The date-and-time part of `datetime.isoformat`, up to the seconds field. -/
def baseChars (d : PyDatetime) : List Char :=
  pad4 d.year ++ '-' :: pad2 d.month ++ '-' :: pad2 d.day ++
    'T' :: pad2 d.hour ++ ':' :: pad2 d.minute ++ ':' :: pad2 d.second

/-- `datetime.isoformat()` (used by `Message.to_dict`, message.py 107): the
fractional part is printed as six digits when the microsecond field is nonzero
and omitted entirely when it is zero. -/
def isoformatChars (d : PyDatetime) : List Char :=
  baseChars d ++ (if d.microsecond = 0 then [] else '.' :: pad6 d.microsecond) ++
    tzChars d.utcoffsetMinutes

/-- Python's `'c' in s` membership test on a string. -/
def hasChar (c : Char) (l : List Char) : Bool := l.any (· = c)

/-- `timestamp_str.replace('Z', '+00:00')` (message.py 136). -/
def replaceZ : List Char → List Char
  | [] => []
  | c :: rest =>
    if c = 'Z' then '+' :: '0' :: '0' :: ':' :: '0' :: '0' :: replaceZ rest
    else c :: replaceZ rest

/-- `timestamp_str.rsplit('+', 1)` (message.py 140): the parts before and after
the last `'+'`, or `none` when there is none. -/
def rsplitPlus : List Char → Option (List Char × List Char)
  | [] => none
  | c :: rest =>
    match rsplitPlus rest with
    | some (a, b) => some (c :: a, b)
    | none => if c = '+' then some ([], rest) else none

/-- `base_part, frac_part = date_part.split('.')` (message.py 142): the parts
around the first `'.'`; `none` when the two-way unpack would raise
`ValueError` (no dot, or more than one). -/
def splitDotPair : List Char → Option (List Char × List Char)
  | [] => none
  | c :: rest =>
    if c = '.' then (if hasChar '.' rest then none else some ([], rest))
    else (splitDotPair rest).map (fun p => (c :: p.1, p.2))

/-- The timestamp-string normalization of `Message.from_dict`
(message.py 136-145): rewrite `'Z'`, and when the string contains both a `'.'`
and a `'+'`, truncate the fractional digits between them to at most six.
`none` models the uncaught `ValueError` from the two-way destructuring. -/
def normalizeTimestampStr (l : List Char) : Option (List Char) :=
  let s := replaceZ l
  if hasChar '.' s && hasChar '+' s then
    match rsplitPlus s with
    | some (datePart, tzPart) =>
      if hasChar '.' datePart then
        (splitDotPair datePart).map
          (fun p => p.1 ++ '.' :: (p.2.take 6 ++ '+' :: tzPart))
      else some s
    | none => some s
  else some s

/-- One character of a decimal number, as `datetime.fromisoformat` reads it. -/
def parseDigit (c : Char) : Option ℕ :=
  if '0' ≤ c ∧ c ≤ '9' then some (c.toNat - 48) else none

/-- Two decimal digits. -/
def digit2 (a b : Char) : Option ℕ := do
  pure ((← parseDigit a) * 10 + (← parseDigit b))

/-- The value of a run of decimal digits. -/
def digitsVal (l : List Char) : Option ℕ :=
  l.foldlM (fun acc c => (parseDigit c).map (fun d => acc * 10 + d)) 0

/-- The optional `±HH:MM` tail of an ISO-8601 time string. -/
def parseTzTail : List Char → Option (Option ℤ)
  | [] => some none
  | [sign, h1, h2, ':', m1, m2] =>
    if sign = '+' ∨ sign = '-' then do
      let hh ← digit2 h1 h2
      let mm ← digit2 m1 m2
      let v : ℤ := hh * 60 + mm
      some (some (if sign = '-' then -v else v))
    else none
  | _ => none

/-- The optional fractional-second field followed by the optional offset.  At
most six fractional digits are accepted, per the source's own comment
(message.py 134-135) that `fromisoformat` supports only up to microseconds; a
shorter run scales up, as `.5` means 500000 microseconds. -/
def parseFracTz (l : List Char) : Option (ℕ × Option ℤ) :=
  match l with
  | c :: rest =>
    if c = '.' then
      let digs := rest.takeWhile Char.isDigit
      let rest2 := rest.dropWhile Char.isDigit
      if digs.length = 0 ∨ 6 < digs.length then none
      else do
        let n ← digitsVal digs
        let tz ← parseTzTail rest2
        some (n * 10 ^ (6 - digs.length), tz)
    else do
      let tz ← parseTzTail (c :: rest)
      some (0, tz)
  | [] => do
    let tz ← parseTzTail []
    some (0, tz)

/-- `datetime.fromisoformat` (message.py 147) on the shapes the SDK produces and
consumes: `YYYY-MM-DDTHH:MM:SS`, optional fraction, optional `±HH:MM` offset. -/
def fromisoformatChars (l : List Char) : Option PyDatetime :=
  match l with
  | y1 :: y2 :: y3 :: y4 :: '-' :: mo1 :: mo2 :: '-' :: d1 :: d2 :: 'T' ::
      h1 :: h2 :: ':' :: mi1 :: mi2 :: ':' :: s1 :: s2 :: rest => do
    let yhi ← digit2 y1 y2
    let ylo ← digit2 y3 y4
    let month ← digit2 mo1 mo2
    let day ← digit2 d1 d2
    let hour ← digit2 h1 h2
    let minute ← digit2 mi1 mi2
    let second ← digit2 s1 s2
    let (micro, tz) ← parseFracTz rest
    some ⟨yhi * 100 + ylo, month, day, hour, minute, second, micro, tz⟩
  | _ => none

/-- The full timestamp handling of `Message.from_dict` (message.py 131-147):
normalize the string, then parse it. -/
def parseTimestamp (l : List Char) : Option PyDatetime := do
  fromisoformatChars (← normalizeTimestampStr l)

/-! ## JSON values and the `Message` dataclass (message.py 26-198) -/

/-- A JSON-shaped Python value, keeping the `int`/`float` distinction that
Python preserves (floats carried as the rationals they denote). -/
inductive Json where
  | null
  | bool (b : Bool)
  | int (n : ℤ)
  | float (q : ℚ)
  | str (s : String)
  | arr (elems : List Json)
  | obj (fields : List (String × Json))

/-- Python truthiness of a JSON-shaped value, as the `if self.payload:` style
guards of `Message.to_dict` use it (message.py 113-124). -/
def Json.truthy : Json → Bool
  | .null => false
  | .bool b => b
  | .int n => decide (n ≠ 0)
  | .float q => decide (q ≠ 0)
  | .str s => !s.isEmpty
  | .arr l => !l.isEmpty
  | .obj l => !l.isEmpty

/-- The fields of the `Message` dataclass (message.py 26-58).  The
auto-generated defaults (`message_id`, `idempotency_key`, `timestamp`) are
plain fields here because their generators are nondeterministic. -/
structure Message where
  sender : String
  recipients : List String
  subject : Option String := none
  payload : Option Json := none
  schema : Option String := none
  message_id : String
  idempotency_key : String
  timestamp : PyDatetime
  version : String := "1.0"
  in_reply_to : Option String := none
  headers : Option Json := none
  attachments : Option (List Json) := none

/-- `Message._is_valid_address` (message.py 84-94). -/
def is_valid_address (address : String) : Bool :=
  if address.isEmpty || !(address.contains '@') then false
  else
    match address.splitOn "@" with
    | [agent, domain] => !agent.isEmpty && !domain.isEmpty
    | _ => false

/-- `Message._is_valid_schema` (message.py 96-99). -/
def is_valid_schema (schema : String) : Bool :=
  schema.contains ':' && schema.contains '.'

/-- The `raise Error(...)` sites of `Message.validate` (message.py 64-82). -/
inductive ValidationError where
  | noSender
  | noRecipients
  | badRecipient (r : String)
  | badSender (s : String)
  | badSchema (s : String)
  deriving DecidableEq, Repr

/-- `Message.validate` (message.py 64-82), checks in source order; the schema
check is skipped for an absent or empty (falsy) schema id. -/
def Message.validate (m : Message) : Except ValidationError Unit :=
  if m.sender.isEmpty then .error .noSender
  else if m.recipients.isEmpty then .error .noRecipients
  else
    match m.recipients.find? (fun r => !is_valid_address r) with
    | some r => .error (.badRecipient r)
    | none =>
      if !is_valid_address m.sender then .error (.badSender m.sender)
      else if !(m.schema.getD "").isEmpty && !is_valid_schema (m.schema.getD "") then
        .error (.badSchema (m.schema.getD ""))
      else .ok ()

/-- Constructing a `Message`: the dataclass runs `__post_init__`, which calls
`validate` (message.py 60-62), so construction returns the message or raises. -/
def mkMessage (m : Message) : Except ValidationError Message :=
  (m.validate).map fun _ => m

/-- `Message.reply` (message.py 179-187): a new `Message` with empty sender
(`# Will be set by agent`), the original sender as sole recipient, a defaulted
subject, and `in_reply_to = self.message_id`.  It goes through the constructor,
hence through `__post_init__` validation.  `gen_id`, `gen_key` and `now` stand
for the generated defaults of the new message. -/
def Message.reply (m : Message) (payload : Json) (subject : Option String)
    (gen_id gen_key : String) (now : PyDatetime) : Except ValidationError Message :=
  mkMessage
    { sender := ""
      recipients := [m.sender]
      subject :=
        let base := match m.subject with
          | some s => if s.isEmpty then "Message" else s
          | none => "Message"
        some (match subject with
          | some s => if s.isEmpty then "Re: " ++ base else s
          | none => "Re: " ++ base)
      payload := some payload
      message_id := gen_id
      idempotency_key := gen_key
      timestamp := now
      in_reply_to := some m.message_id }

/-- The dictionary `Message.to_dict` builds (message.py 101-126): a field is
`none` exactly when its key is absent from the dictionary. -/
structure MessageDict where
  version : Option String := none
  message_id : Option String := none
  idempotency_key : Option String := none
  timestamp : Option (List Char) := none
  sender : Option String := none
  recipients : Option (List String) := none
  subject : Option String := none
  payload : Option Json := none
  schema : Option String := none
  in_reply_to : Option String := none
  headers : Option Json := none
  attachments : Option (List Json) := none

/-- `Message.to_dict` (message.py 101-126): the six required keys always, each
optional key only when its value is truthy. -/
def Message.to_dict (m : Message) : MessageDict :=
  { version := some m.version
    message_id := some m.message_id
    idempotency_key := some m.idempotency_key
    timestamp := some (isoformatChars m.timestamp)
    sender := some m.sender
    recipients := some m.recipients
    subject := match m.subject with
      | some s => if s.isEmpty then none else some s
      | none => none
    payload := match m.payload with
      | some p => if p.truthy then some p else none
      | none => none
    schema := match m.schema with
      | some s => if s.isEmpty then none else some s
      | none => none
    in_reply_to := match m.in_reply_to with
      | some s => if s.isEmpty then none else some s
      | none => none
    headers := match m.headers with
      | some h => if h.truthy then some h else none
      | none => none
    attachments := match m.attachments with
      | some l => if l.isEmpty then none else some l
      | none => none }

/-- `Message.from_dict` (message.py 128-164).  `gen_id`, `gen_key` and `now`
stand for the generated defaults; `none` models a raise (the `KeyError` on a
missing sender or recipients, the `ValueError` from timestamp parsing, or an
`Error` from the constructor's validation). -/
def Message.from_dict (gen_id gen_key : String) (now : PyDatetime)
    (d : MessageDict) : Option Message := do
  let timestamp ← match d.timestamp with
    | some ts => if ts.isEmpty then pure now else parseTimestamp ts
    | none => pure now
  let sender ← d.sender
  let recipients ← d.recipients
  let m : Message :=
    { version := d.version.getD "1.0"
      message_id := d.message_id.getD gen_id
      idempotency_key := d.idempotency_key.getD gen_key
      timestamp := timestamp
      sender := sender
      recipients := recipients
      subject := d.subject
      payload := d.payload
      schema := d.schema
      in_reply_to := d.in_reply_to
      headers := d.headers
      attachments := d.attachments }
  match m.validate with
  | .ok _ => some m
  | .error _ => none

/-! ## `json.dumps` (used by `AMTP.send`, agent.py 185, and `Message.to_json`,
message.py 166-168) -/

/-- The object-opening character. -/
def lbrace : Char := Char.ofNat 123

/-- The object-closing character. -/
def rbrace : Char := Char.ofNat 125

/-- A hexadecimal digit as `json.dumps` prints it in `\uXXXX` escapes. -/
def hexChar : ℕ → Char
  | 10 => 'a' | 11 => 'b' | 12 => 'c' | 13 => 'd' | 14 => 'e' | 15 => 'f'
  | n => digitChar (n % 10)

/-- Four hexadecimal digits. -/
def hex4 (n : ℕ) : List Char :=
  [hexChar (n / 4096 % 16), hexChar (n / 256 % 16), hexChar (n / 16 % 16),
   hexChar (n % 16)]

/-- `json.dumps` rendering of one character inside a string literal, with the
default `ensure_ascii=True`: printable ASCII passes through, the short escapes
cover the usual control characters, and everything else becomes `\uXXXX`
(a surrogate pair beyond the basic plane). -/
def escapeChar (c : Char) : List Char :=
  if c = '"' then ['\\', '"']
  else if c = '\\' then ['\\', '\\']
  else if c = '\n' then ['\\', 'n']
  else if c = '\t' then ['\\', 't']
  else if c = '\r' then ['\\', 'r']
  else if c.toNat = 8 then ['\\', 'b']
  else if c.toNat = 12 then ['\\', 'f']
  else if c.toNat < 32 then '\\' :: 'u' :: hex4 c.toNat
  else if c.toNat < 127 then [c]
  else if c.toNat < 65536 then '\\' :: 'u' :: hex4 c.toNat
  else
    '\\' :: 'u' :: hex4 (55296 + (c.toNat - 65536) / 1024) ++
      '\\' :: 'u' :: hex4 (56320 + (c.toNat - 65536) % 1024)

/-- `json.dumps` rendering of a string literal. -/
def dumpStr (s : String) : List Char :=
  '"' :: s.data.foldr (fun c acc => escapeChar c ++ acc) ['"']

/-- Python `repr` of a float, uninterpreted here (rendered from the rational it
denotes).  No claim below serializes a float; the only property used is that
the rendering does not depend on the serialization mode. -/
def floatChars (q : ℚ) : List Char :=
  (toString q.num).data ++ '.' :: (toString q.den).data

/-- `json.dumps` rendering of an atomic (non-container) value; identical in the
compact and the indented mode. -/
def dumpAtom : Json → List Char
  | .null => "null".data
  | .bool true => "true".data
  | .bool false => "false".data
  | .int n => (toString n).data
  | .float q => floatChars q
  | .str s => dumpStr s
  | .arr _ => []
  | .obj _ => []

mutual
/-- `json.dumps(value)` with the default flags: no indent,
`separators=(', ', ': ')`.  This is what `AMTP.send` measures (agent.py 185). -/
def dumpsCompact : Json → List Char
  | .arr [] => ['[', ']']
  | .arr (x :: xs) => '[' :: dumpsCompact x ++ dumpsCompactArrTail xs ++ [']']
  | .obj [] => [lbrace, rbrace]
  | .obj ((k, v) :: fs) =>
    lbrace :: dumpStr k ++ ':' :: ' ' :: dumpsCompact v ++
      dumpsCompactObjTail fs ++ [rbrace]
  | v => dumpAtom v

/-- The `', '`-separated tail of a compact array. -/
def dumpsCompactArrTail : List Json → List Char
  | [] => []
  | x :: xs => ',' :: ' ' :: dumpsCompact x ++ dumpsCompactArrTail xs

/-- The `', '`-separated tail of a compact object. -/
def dumpsCompactObjTail : List (String × Json) → List Char
  | [] => []
  | (k, v) :: fs =>
    ',' :: ' ' :: dumpStr k ++ ':' :: ' ' :: dumpsCompact v ++ dumpsCompactObjTail fs
end

/-- The newline-plus-indentation `json.dumps(..., indent=2)` emits before an
item at nesting `level`. -/
def nlIndent (level : ℕ) : List Char := '\n' :: List.replicate (2 * level) ' '

mutual
/-- `json.dumps(value, indent=2)` (with its default
`separators=(',', ': ')`): each container item on its own line, two spaces of
indentation per level, empty containers printed inline.  This is what
`Message.to_json`, hence `Message.size`, uses (message.py 166-168, 189-191). -/
def dumpsIndent (level : ℕ) : Json → List Char
  | .arr [] => ['[', ']']
  | .arr (x :: xs) =>
    '[' :: nlIndent (level + 1) ++ dumpsIndent (level + 1) x ++
      dumpsIndentArrTail (level + 1) xs ++ nlIndent level ++ [']']
  | .obj [] => [lbrace, rbrace]
  | .obj ((k, v) :: fs) =>
    lbrace :: nlIndent (level + 1) ++ dumpStr k ++ ':' :: ' ' ::
      dumpsIndent (level + 1) v ++ dumpsIndentObjTail (level + 1) fs ++
      nlIndent level ++ [rbrace]
  | v => dumpAtom v

/-- The `','`-then-newline separated tail of an indented array. -/
def dumpsIndentArrTail (level : ℕ) : List Json → List Char
  | [] => []
  | x :: xs =>
    ',' :: nlIndent level ++ dumpsIndent level x ++ dumpsIndentArrTail level xs

/-- The `','`-then-newline separated tail of an indented object. -/
def dumpsIndentObjTail (level : ℕ) : List (String × Json) → List Char
  | [] => []
  | (k, v) :: fs =>
    ',' :: nlIndent level ++ dumpStr k ++ ':' :: ' ' :: dumpsIndent level v ++
      dumpsIndentObjTail level fs
end

/-- `len(rendered.encode('utf-8'))`: the UTF-8 byte length of a rendering. -/
def utf8Len (l : List Char) : ℕ := (l.map Char.utf8Size).sum

/-- The entries of the dictionary `to_dict` returns, in insertion order
(message.py 103-124), as the JSON object `json.dumps` receives. -/
def MessageDict.entries (d : MessageDict) : List (String × Json) :=
  (match d.version with | some v => [("version", Json.str v)] | none => []) ++
  (match d.message_id with | some v => [("message_id", Json.str v)] | none => []) ++
  (match d.idempotency_key with
    | some v => [("idempotency_key", Json.str v)] | none => []) ++
  (match d.timestamp with
    | some ts => [("timestamp", Json.str (String.mk ts))] | none => []) ++
  (match d.sender with | some v => [("sender", Json.str v)] | none => []) ++
  (match d.recipients with
    | some rs => [("recipients", Json.arr (rs.map Json.str))] | none => []) ++
  (match d.subject with | some v => [("subject", Json.str v)] | none => []) ++
  (match d.payload with | some p => [("payload", p)] | none => []) ++
  (match d.schema with | some v => [("schema", Json.str v)] | none => []) ++
  (match d.in_reply_to with | some v => [("in_reply_to", Json.str v)] | none => []) ++
  (match d.headers with | some h => [("headers", h)] | none => []) ++
  (match d.attachments with
    | some l => [("attachments", Json.arr l)] | none => [])

/-- The dictionary as a JSON value. -/
def MessageDict.toJson (d : MessageDict) : Json := .obj d.entries

/-- `Message.to_json` (message.py 166-168): `json.dumps(self.to_dict(), indent=2)`. -/
def Message.to_json (m : Message) : List Char := dumpsIndent 0 m.to_dict.toJson

/-- `Message.size` (message.py 189-191): the UTF-8 byte length of `to_json()`. -/
def Message.size (m : Message) : ℕ := utf8Len m.to_json

/-- The byte count `AMTP.send` checks against the quota (agent.py 185):
compact `json.dumps(message.to_dict())`, UTF-8 encoded. -/
def sendWireSize (m : Message) : ℕ := utf8Len (dumpsCompact m.to_dict.toJson)

/-- The `raise` sites of `AMTP.send` before its transport submission
(agent.py 178-187). -/
inductive SendPreError where
  | validation (e : ValidationError)
  | messageTooLarge
  deriving DecidableEq, Repr

/-- `AMTP.send` (agent.py 165-195) up to the network submission: default the
sender from the session address, validate, then enforce the size quota.
`.error` means `send` raised before any network call; `.ok m'` means `m'` is
what is then submitted to `POST /v1/messages`. -/
def sendPre (selfAddress : String) (maxMessageSize : ℕ) (m : Message) :
    Except SendPreError Message :=
  let m := if m.sender.isEmpty then { m with sender := selfAddress } else m
  match m.validate with
  | .error e => .error (.validation e)
  | .ok _ =>
    if maxMessageSize < sendWireSize m then .error .messageTooLarge
    else .ok m

/-! ## Schema validation: `Schema.validate_message` (schema.py 71-98)

`validate_message` delegates to the `jsonschema` package's `Draft7Validator`;
the definitions below embed that validator's semantics for the keyword subset
the SDK's schemas use (`type`, `required`, `properties`, `items`).  Under
Draft 7 the `integer` type accepts Python `int`s and also `float`s whose
fractional part is zero, `number` accepts both numeric representations, and
`bool` is neither. -/

/-- A node of the JSON-Schema subset: a declared `type` with the recursion
keywords relevant to it. -/
inductive SchemaNode where
  | object (required : List String) (properties : List (String × SchemaNode))
  | array (items : Option SchemaNode)
  | string
  | number
  | integer
  | boolean

/-- One element of a violation's `absolute_path`: an object property name or an
array index. -/
inductive PathElem where
  | key (s : String)
  | idx (n : ℕ)
  deriving DecidableEq, Repr

/-- The kind of a violation. -/
inductive Violation where
  | typeMismatch
  | missingRequired (name : String)
  deriving DecidableEq, Repr

/-- What `Schema.validate_message` reports for the first violation: its
`absolute_path` (schema.py 95) and its kind. -/
structure SchemaViolation where
  path : List PathElem
  violation : Violation
  deriving DecidableEq, Repr

/-- Python `dict` lookup on the association list representing an object. -/
def lookupField (name : String) : List (String × Json) → Option Json
  | [] => none
  | (k, v) :: rest => if k = name then some v else lookupField name rest

/-- The first name in `required` that is missing from the object. -/
def findMissingRequired (required : List String) (fields : List (String × Json)) :
    Option String :=
  required.find? fun name => (lookupField name fields).isNone

mutual
/-- Draft 7 validation of one value against one schema node, returning the
first violation (the error `validator.validate` raises, schema.py 86-89) or
`none` when valid.  The claims below involve at most one violation per payload,
so the keyword evaluation order is immaterial to them. -/
def validateNode : SchemaNode → Json → List PathElem → Option SchemaViolation
  | .string, v, path =>
    match v with | .str _ => none | _ => some ⟨path, .typeMismatch⟩
  | .boolean, v, path =>
    match v with | .bool _ => none | _ => some ⟨path, .typeMismatch⟩
  | .number, v, path =>
    match v with | .int _ => none | .float _ => none | _ => some ⟨path, .typeMismatch⟩
  | .integer, v, path =>
    match v with
    | .int _ => none
    | .float q => if q.den = 1 then none else some ⟨path, .typeMismatch⟩
    | _ => some ⟨path, .typeMismatch⟩
  | .array items, v, path =>
    match v with
    | .arr elems =>
      match items with
      | some node => validateElems node elems path 0
      | none => none
    | _ => some ⟨path, .typeMismatch⟩
  | .object required properties, v, path =>
    match v with
    | .obj fields =>
      match findMissingRequired required fields with
      | some name => some ⟨path, .missingRequired name⟩
      | none => validateProps properties fields path
    | _ => some ⟨path, .typeMismatch⟩

/-- Validate every element of an array against the `items` node, indices taken
in order. -/
def validateElems : SchemaNode → List Json → List PathElem → ℕ → Option SchemaViolation
  | _, [], _, _ => none
  | node, e :: es, path, i =>
    match validateNode node e (path ++ [.idx i]) with
    | some err => some err
    | none => validateElems node es path (i + 1)

/-- Validate each declared property that is present in the object; keys absent
from `properties` are permitted and unchecked. -/
def validateProps :
    List (String × SchemaNode) → List (String × Json) → List PathElem →
      Option SchemaViolation
  | [], _, _ => none
  | (name, node) :: rest, fields, path =>
    match lookupField name fields with
    | some v =>
      match validateNode node v (path ++ [.key name]) with
      | some err => some err
      | none => validateProps rest fields path
    | none => validateProps rest fields path
end

/-- `Schema.validate_message` (schema.py 71-98): returns `True` on success,
raises an `Error` carrying the first violation's path otherwise. -/
def validate_message (node : SchemaNode) (payload : Json) :
    Except SchemaViolation Unit :=
  match validateNode node payload [] with
  | some err => .error err
  | none => .ok ()

/-! ## Pull-mode delivery loop: `AMTP._message_loop` (agent.py 336-387) -/

/-- Result of awaiting the user message handler (agent.py 350-351). -/
inductive HandlerOutcome where
  | raises
  | ok (response : Option Json)

/-- The collaborators of one batch iteration of `_message_loop`: the registered
handler (`none` when absent), whether building-and-sending a reply for a given
message/response succeeds (agent.py 354-362 — constructing the reply `Message`
and `await self.send(reply)` raise into the same per-message handler, so they
are abstracted together), whether `acknowledge` succeeds, and the error-handler
registration and behavior. -/
structure LoopEnv where
  handler : Option (Message → HandlerOutcome)
  replySendOk : Message → Json → Bool
  ackOk : String → Bool
  hasErrorHandler : Bool
  errorHandlerRaises : Bool

/-- The externally visible per-message steps, each tagged with the id of the
polled message it belongs to. -/
inductive LoopEvent where
  | handlerCalled (id : String)
  | replySent (id : String)
  | acked (id : String)
  | errorLogged (id : String)
  | errorHandlerCalled (id : String)
  | errorHandlerFailureLogged (id : String)
  deriving DecidableEq, Repr

/-- The message id an event belongs to. -/
def LoopEvent.idOf : LoopEvent → String
  | .handlerCalled i | .replySent i | .acked i | .errorLogged i
  | .errorHandlerCalled i | .errorHandlerFailureLogged i => i

/-- The reply/acknowledge part of the per-message body, given the handler's
response (agent.py 353-365): send a reply when the response and the original
sender are truthy, then acknowledge; the first failing step raises. -/
def processTail (env : LoopEnv) (msg : Message) (response : Option Json) :
    List LoopEvent × Bool :=
  let i := msg.message_id
  if ((response.map Json.truthy).getD false && !msg.sender.isEmpty) = true then
    if env.replySendOk msg (response.getD .null) then
      if env.ackOk i then ([.replySent i, .acked i], false)
      else ([.replySent i], true)
    else ([], true)
  else if env.ackOk i then ([.acked i], false)
  else ([], true)

/-- The body of the per-message `try` (agent.py 347-365): returns the events
performed and whether an exception escaped the body. -/
def processBody (env : LoopEnv) (msg : Message) : List LoopEvent × Bool :=
  match env.handler with
  | some h =>
    match h msg with
    | .raises => ([.handlerCalled msg.message_id], true)
    | .ok response =>
      let r := processTail env msg response
      (.handlerCalled msg.message_id :: r.1, r.2)
  | none => processTail env msg none

/-- One iteration of the per-message `for` body with its `except`
(agent.py 346-373): an escaping exception is logged and routed to the error
handler when one is registered; the error handler's own failure is caught and
only logged (agent.py 370-373). -/
def processOne (env : LoopEnv) (msg : Message) : List LoopEvent :=
  let r := processBody env msg
  if r.2 then
    r.1 ++ .errorLogged msg.message_id ::
      (if env.hasErrorHandler then
        .errorHandlerCalled msg.message_id ::
          (if env.errorHandlerRaises then
            [.errorHandlerFailureLogged msg.message_id]
          else [])
      else [])
  else r.1

/-- The `for message in messages` loop over one polled batch (agent.py 346-373):
each message's processing is wrapped in its own `try`/`except`, so the
iteration never aborts. -/
def processBatch (env : LoopEnv) : List Message → List LoopEvent
  | [] => []
  | m :: rest => processOne env m ++ processBatch env rest

/-- Whether the loop would send a reply for this message: the handler is
registered, returns a truthy response, and the message has a sender
(agent.py 353-354). -/
def replyApplicable (env : LoopEnv) (msg : Message) : Bool :=
  match env.handler with
  | some h =>
    match h msg with
    | .ok r => (r.map Json.truthy).getD false && !msg.sender.isEmpty
    | .raises => false
  | none => false

/-! ## Concrete instances used by counterexamples and witnesses -/

/-- A fixed timestamp (1970-01-01T00:00:00, naive). -/
def epochTs : PyDatetime := ⟨1970, 1, 1, 0, 0, 0, 0, none⟩

/-- A validated message whose payload is present but the empty dict (falsy). -/
def msgEmptyPayload : Message :=
  { sender := "alice@example.com"
    recipients := ["bob@example.com"]
    payload := some (.obj [])
    message_id := "m-1"
    idempotency_key := "k-1"
    timestamp := ⟨2024, 1, 15, 10, 30, 0, 123456, some 0⟩ }

/-- A small validated message for the size-quota claims. -/
def msgSized : Message :=
  { sender := "alice@example.com"
    recipients := ["bob@example.com"]
    subject := some "Hello"
    payload := some (.obj [("a", .str "x")])
    message_id := "m-1"
    idempotency_key := "k-1"
    timestamp := ⟨2024, 1, 15, 10, 30, 0, 0, some 0⟩ }

/-- The spec's example schema: an object requiring `a`, with `a : string` and
`b : integer`. -/
def exampleSchema : SchemaNode :=
  .object ["a"] [("a", .string), ("b", .integer)]

/-- A polled message with a given id, for the delivery-loop batch. -/
def polledMsg (i : String) : Message :=
  { sender := "peer@example.com"
    recipients := ["self@example.com"]
    message_id := i
    idempotency_key := "k-" ++ i
    timestamp := epochTs }

/-- A delivery-loop environment in which the handler raises exactly on message
`"m2"` and responds with a truthy payload otherwise, every reply send and
acknowledge succeeds, and an error handler is registered. -/
def loopEnvRaisesOn2 : LoopEnv :=
  { handler := some fun msg =>
      if msg.message_id = "m2" then .raises else .ok (some (.obj [("r", .str "v")]))
    replySendOk := fun _ _ => true
    ackOk := fun _ => true
    hasErrorHandler := true
    errorHandlerRaises := false }

/-! ## C1: `Message.reply` -/

/-- C1: `reply` builds its draft through the `Message` constructor with
`sender=""`, and `__post_init__` validation rejects an empty sender, so every
`reply` call raises `Error("Message must have a sender")` instead of returning
a draft. -/
theorem reply_always_raises (m : Message) (payload : Json) (subject : Option String)
    (gen_id gen_key : String) (now : PyDatetime) :
    m.reply payload subject gen_id gen_key now =
      .error ValidationError.noSender := rfl

/-! ## C10: `_request` with nonpositive `max_retries` -/

/-- C10: with `max_retries ≤ 0` the retry loop `for attempt in range(...)` never
runs, so `_request` performs no HTTP attempt, sleeps never, and falls through
to Python's implicit `return None` — neither a response map nor a raised
classified error. -/
theorem request_no_retries (d : ℚ) (M : ℤ) (hM : M ≤ 0)
    (outcomes : ℕ → AttemptOutcome) :
    request d M outcomes = (.returned none, [], 0) := by
  unfold request
  rw [Int.toNat_of_nonpos hM]
  rfl

/-- C10 witness: `max_retries = 0` (the `-2` case reduces to the same empty
range). -/
theorem request_no_retries_witness :
    (0 : ℤ) ≤ 0 ∧
      request 1 0 (fun _ => .netError) = (.returned none, [], 0) :=
  ⟨le_refl 0, request_no_retries 1 0 (le_refl 0) (fun _ => .netError)⟩

/-! ## C5: `unregister` best effort -/

/-- C5 counterexample: from a registered session whose DELETE request fails,
`unregister` swallows the failure but leaves the registered flag set — the
claim's "cleared afterwards whether the request succeeded or failed" is false
on the failure branch. -/
theorem unregister_not_cleared_cex :
    (unregister ⟨true, none, false⟩
        ⟨true, true, false, none, "manager@localhost"⟩).2.2 = false ∧
    (unregister ⟨true, none, false⟩
        ⟨true, true, false, none, "manager@localhost"⟩).1.registered = true := by
  exact ⟨rfl, rfl⟩

/-- C5 (amended): `unregister` never raises — a transport failure is logged
only — and the registered flag is cleared exactly when it was set and the
DELETE request succeeded; after a failed request the flag remains set. -/
theorem unregister_best_effort (env : TransportEnv) (st : SessionState) :
    (unregister env st).2.2 = false ∧
    (unregister env st).1.registered =
      (st.registered && !((st.hasSession || env.healthOk) && env.unregisterOk)) := by
  obtain ⟨h, rr, u⟩ := env
  obtain ⟨hs, reg, run, key, addr⟩ := st
  cases h <;> cases u <;> cases hs <;> cases reg <;> simp [unregister]

/-! ## C9: lifecycle idempotence -/

/-- C9 counterexample: with a registered session and a failing DELETE, the
first `unregister` completes without raising but leaves the flag set, so a
second `unregister` issues another transport request — not the claimed no-op. -/
theorem idempotence_cex :
    (unregister ⟨true, none, false⟩
        ⟨true, true, false, none, "agent@example.com"⟩).2.2 = false ∧
    (unregister ⟨true, none, false⟩
        ((unregister ⟨true, none, false⟩
          ⟨true, true, false, none, "agent@example.com"⟩).1)).2.1 = 1 := by
  exact ⟨rfl, rfl⟩

/-- C9 (amended): a second `connect` after a non-raising `connect`, a second
`register` after a non-raising `register`, a second `unregister` after one that
actually cleared the flag, and a second `stop` after any `stop`, are all
no-ops: same state, no transport request, no raise.  (After an `unregister`
whose request failed the flag remains set and a second call repeats the
request.) -/
theorem lifecycle_idempotence (env env' : TransportEnv) (st : SessionState) :
    ((connect env st).2.2 = false →
      connect env' (connect env st).1 = ((connect env st).1, 0, false)) ∧
    ((register env st).2.2 = false →
      register env' (register env st).1 = ((register env st).1, 0, false)) ∧
    ((unregister env st).1.registered = false →
      unregister env' (unregister env st).1 = ((unregister env st).1, 0, false)) ∧
    stop env' (stop env st).1 = ((stop env st).1, 0, false) := by
  obtain ⟨h, rr, u⟩ := env
  obtain ⟨hs, reg, run, key, addr⟩ := st
  refine ⟨?_, ?_, ?_, ?_⟩
  · cases h <;> cases hs <;> simp [connect]
  · cases h <;> cases hs <;> cases reg <;> rcases rr with _ | r <;>
      simp [register]
  · cases h <;> cases u <;> cases hs <;> cases reg <;> simp [unregister]
  · cases h <;> cases u <;> cases hs <;> cases reg <;> cases run <;>
      simp [stop, unregister]

/-- C9 witness: a full successful lifecycle on concrete inputs — each repeated
call is a no-op. -/
theorem lifecycle_idempotence_witness :
    (connect ⟨true, some ⟨some "key", some "a@gw", none, none, none⟩, true⟩
        ⟨false, false, false, none, "a@gw"⟩).2.2 = false ∧
    connect ⟨true, some ⟨some "key", some "a@gw", none, none, none⟩, true⟩
        ((connect ⟨true, some ⟨some "key", some "a@gw", none, none, none⟩, true⟩
          ⟨false, false, false, none, "a@gw"⟩).1) =
      ((connect ⟨true, some ⟨some "key", some "a@gw", none, none, none⟩, true⟩
          ⟨false, false, false, none, "a@gw"⟩).1, 0, false) := by
  have h := lifecycle_idempotence
    ⟨true, some ⟨some "key", some "a@gw", none, none, none⟩, true⟩
    ⟨true, some ⟨some "key", some "a@gw", none, none, none⟩, true⟩
    ⟨false, false, false, none, "a@gw"⟩
  exact ⟨rfl, h.1 rfl⟩

/-! ## C3 / C4: retry and backoff in `_request` -/

/-- Running the retry loop across a block of `k` connection-level failures,
none of which is the final attempt: each failed attempt `j` sleeps
`retry_delay * 2 ^ j` and the loop continues. -/
theorem requestLoop_connfail_prefix (d : ℚ) (M : ℤ) (outcomes : ℕ → AttemptOutcome)
    (k : ℕ) :
    ∀ f a, k ≤ f →
      (∀ j, a ≤ j → j < a + k → (outcomes j).isConnFail = true) →
      (∀ j, a ≤ j → j < a + k → (j : ℤ) ≠ M - 1) →
      requestLoop d M outcomes a f =
        ((requestLoop d M outcomes (a + k) (f - k)).1,
         (List.range' a k).map (fun j => d * 2 ^ j) ++
           (requestLoop d M outcomes (a + k) (f - k)).2.1,
         (requestLoop d M outcomes (a + k) (f - k)).2.2 + k) := by
  induction k with
  | zero => intro f a _ _ _; simp
  | succ k ih =>
    intro f a hkf hfail hlast
    obtain ⟨f', rfl⟩ : ∃ f', f = f' + 1 := ⟨f - 1, by omega⟩
    have hf : (outcomes a).isConnFail = true := hfail a le_rfl (by omega)
    have hl : ¬((a : ℤ) = M - 1) := hlast a le_rfl (by omega)
    have ihs := ih f' (a + 1) (by omega)
      (fun j h1 h2 => hfail j (by omega) (by omega))
      (fun j h1 h2 => hlast j (by omega) (by omega))
    have harr : a + 1 + k = a + (k + 1) := by omega
    have hfu : f' - k = f' + 1 - (k + 1) := by omega
    rw [harr, hfu] at ihs
    cases ho : outcomes a with
    | http s b => rw [ho] at hf; simp [AttemptOutcome.isConnFail] at hf
    | netError =>
      rw [requestLoop, ho]
      simp only [if_neg hl, ihs, List.range'_succ, List.map_cons, List.cons_append,
        Nat.add_assoc]
    | timeout =>
      rw [requestLoop, ho]
      simp only [if_neg hl, ihs, List.range'_succ, List.map_cons, List.cons_append,
        Nat.add_assoc]

/-- The last attempt (`attempt == max_retries - 1`) failing at the connection
level raises the classified final error. -/
theorem requestLoop_last_connfail (d : ℚ) (M : ℤ) (outcomes : ℕ → AttemptOutcome)
    (a : ℕ) (ha : (a : ℤ) = M - 1) (hf : (outcomes a).isConnFail = true) :
    requestLoop d M outcomes a 1 = (.raised (connFailErr (outcomes a)), [], 1) := by
  cases ho : outcomes a with
  | http s b => rw [ho] at hf; simp [AttemptOutcome.isConnFail] at hf
  | netError => rw [requestLoop, ho]; simp [ha, connFailErr]
  | timeout => rw [requestLoop, ho]; simp [ha, connFailErr]

/-- C3: with `max_retries = n ≥ 1` and retry base delay `d`, a request whose
every attempt fails at the connection level performs exactly `n` attempts,
sleeps `d * 2 ^ k` after failed attempt `k` for `k = 0 .. n-2`, and surfaces
the final attempt's failure as the `Request failed`/`Request timed out`
error. -/
theorem request_all_conn_failures (d : ℚ) (n : ℕ) (outcomes : ℕ → AttemptOutcome)
    (hn : 1 ≤ n) (hfail : ∀ k, (outcomes k).isConnFail = true) :
    request d (n : ℤ) outcomes =
      (.raised (connFailErr (outcomes (n - 1))),
       (List.range (n - 1)).map (fun k => d * 2 ^ k), n) ∧
    (connFailErr (outcomes (n - 1)) = .requestFailed ∨
      connFailErr (outcomes (n - 1)) = .timedOut) := by
  constructor
  · unfold request
    have htn : ((n : ℤ)).toNat = n := by omega
    rw [htn]
    have h := requestLoop_connfail_prefix d (n : ℤ) outcomes (n - 1) n 0
      (by omega) (fun j _ _ => hfail j) (fun j _ hj => by omega)
    rw [h]
    have hone : n - (n - 1) = 1 := by omega
    rw [Nat.zero_add, hone,
      requestLoop_last_connfail d (n : ℤ) outcomes (n - 1) (by omega) (hfail (n - 1))]
    simp [List.range_eq_range']
    omega
  · cases ho : outcomes (n - 1) with
    | http s b =>
      have := hfail (n - 1); rw [ho] at this
      simp [AttemptOutcome.isConnFail] at this
    | netError => left; rfl
    | timeout => right; rfl

/-- C3 witness: `max_retries = 3`, `retry_delay = 1.0`, every attempt a network
error: three attempts, sleeps 1s then 2s, final failure surfaced. -/
theorem request_all_conn_failures_witness :
    1 ≤ 3 ∧
      request 1 ((3 : ℕ) : ℤ) (fun _ => .netError) =
        (.raised .requestFailed, [1, 2], 3) := by
  have h := request_all_conn_failures 1 3 (fun _ => .netError) (by norm_num)
    (fun _ => rfl)
  refine ⟨by norm_num, ?_⟩
  rw [h.1]
  norm_num [List.range_succ, connFailErr]

/-- C4: as soon as an attempt yields an application-level (non-2xx) HTTP
response, `_request` raises the corresponding classified error on that very
attempt: no further attempt is made and no backoff sleep follows the failing
attempt, regardless of how many retries remain. -/
theorem request_app_error_immediate (d : ℚ) (M : ℤ) (outcomes : ℕ → AttemptOutcome)
    (k : ℕ) (status : ℕ) (body : String)
    (hk : (k : ℤ) < M)
    (hprev : ∀ j, j < k → (outcomes j).isConnFail = true)
    (hhttp : outcomes k = .http status body)
    (hnot : ¬(status = 200 ∨ status = 201 ∨ status = 202)) :
    ∃ e : ReqError, classifyStatus status body = .error e ∧
      request d M outcomes =
        (.raised e, (List.range k).map (fun j => d * 2 ^ j), k + 1) := by
  obtain ⟨e, he⟩ : ∃ e, classifyStatus status body = .error e := by
    unfold classifyStatus
    rw [if_neg hnot]
    split_ifs <;> exact ⟨_, rfl⟩
  refine ⟨e, he, ?_⟩
  unfold request
  have h := requestLoop_connfail_prefix d M outcomes k M.toNat 0
    (by omega) (fun j _ hj => hprev j (by omega)) (fun j _ hj => by omega)
  rw [h]
  obtain ⟨g, hg⟩ : ∃ g, M.toNat - k = g + 1 := ⟨M.toNat - k - 1, by omega⟩
  rw [Nat.zero_add, hg, requestLoop, hhttp]
  simp [he, List.range_eq_range', Prod.ext_iff]
  omega

/-- C4 witness: `max_retries = 5`, two network errors then a 404: the request
fails `Not found` on attempt 3, with only the two earlier backoff sleeps. -/
theorem request_app_error_immediate_witness :
    ((2 : ℤ) < 5) ∧
      request 1 (5 : ℤ) (fun j => if j < 2 then .netError else .http 404 "") =
        (.raised .notFound, [1, 2], 3) := by
  obtain ⟨e, he, heq⟩ := request_app_error_immediate 1 5
    (fun j => if j < 2 then .netError else .http 404 "") 2 404 ""
    (by norm_num) (by decide) (by norm_num) (by norm_num)
  refine ⟨by norm_num, ?_⟩
  have he' : e = .notFound := by
    rw [show classifyStatus 404 "" = Except.error ReqError.notFound from rfl] at he
    exact (Except.error.injEq _ _).mp he.symm
  rw [heq, he']
  norm_num [List.range_succ]

/-! ## C7: `integer` under Draft 7 -/

/-- C7 counterexample: against the example schema typing `b` as `integer`, the
float `3.0` (zero fractional part) is accepted by the Draft 7 validation the
SDK delegates to, so the claimed rejection of every fractionally-represented
value — `3.0` included — is false. -/
theorem integer_rep_cex :
    validate_message exampleSchema (.obj [("a", .str "x"), ("b", .float 3)]) =
      .ok () := by
  simp [validate_message, validateNode, exampleSchema, validateProps,
    findMissingRequired, lookupField]

/-- C7 (amended): an `integer`-typed node rejects exactly the numbers whose
fractional part is nonzero: every int is accepted, a float is accepted iff it
denotes an integer (so `3.0` passes — the Draft 7 check is numeric, not
representational), and in the example schema a properly fractional `b` such as
`5.5` fails at path `b`. -/
theorem integer_validation (q : ℚ) (n : ℤ) :
    validate_message .integer (.int n) = .ok () ∧
    (validate_message .integer (.float q) = .ok () ↔ q.den = 1) ∧
    (q.den ≠ 1 →
      validate_message exampleSchema (.obj [("a", .str "x"), ("b", .float q)]) =
        .error ⟨[.key "b"], .typeMismatch⟩) := by
  refine ⟨by simp [validate_message, validateNode], ?_, ?_⟩
  · by_cases h : q.den = 1 <;>
      simp [validate_message, validateNode, h]
  · intro h
    simp [validate_message, validateNode, exampleSchema, validateProps,
      findMissingRequired, lookupField, h]

/-- C7 witness: `11/2` (the float `5.5`) has a nonzero fractional part and
fails at path `b`. -/
theorem integer_validation_witness :
    (mkRat 11 2).den ≠ 1 ∧
      validate_message exampleSchema
        (.obj [("a", .str "x"), ("b", .float (mkRat 11 2))]) =
        .error ⟨[.key "b"], .typeMismatch⟩ := by
  have h := integer_validation (mkRat 11 2) 0
  exact ⟨by decide, h.2.2 (by decide)⟩

/-! ## C8: delivery-loop fault isolation -/

/-- The possible outcomes of the per-message `try` body: events and whether an
exception escaped. -/
theorem processBody_enum (env : LoopEnv) (msg : Message) :
    processBody env msg = ([.handlerCalled msg.message_id], true) ∨
    processBody env msg =
      ([.handlerCalled msg.message_id, .replySent msg.message_id,
        .acked msg.message_id], false) ∨
    processBody env msg =
      ([.handlerCalled msg.message_id, .replySent msg.message_id], true) ∨
    processBody env msg =
      ([.handlerCalled msg.message_id, .acked msg.message_id], false) ∨
    processBody env msg = ([.acked msg.message_id], false) ∨
    processBody env msg = ([], true) := by
  unfold processBody processTail
  cases hh : env.handler with
  | none =>
    cases hack : env.ackOk msg.message_id <;> simp [hack]
  | some h =>
    cases hr : h msg with
    | raises => simp [hr]
    | ok resp =>
      simp only [hr]
      cases hack : env.ackOk msg.message_id <;>
        cases hrs : env.replySendOk msg (resp.getD Json.null) <;>
          by_cases hc :
              (((resp.map Json.truthy).getD false && !msg.sender.isEmpty) = true) <;>
            simp [hack, hrs, hc]

/-- `processOne` is the body's events followed by the failure-path suffix. -/
theorem processOne_eq (env : LoopEnv) (msg : Message) :
    processOne env msg =
      (processBody env msg).1 ++
        (if (processBody env msg).2 then
          .errorLogged msg.message_id ::
            (if env.hasErrorHandler then
              .errorHandlerCalled msg.message_id ::
                (if env.errorHandlerRaises then
                  [.errorHandlerFailureLogged msg.message_id]
                else [])
            else [])
        else []) := by
  cases h : (processBody env msg).2 <;> simp [processOne, h]

/-- Every event emitted while processing one message carries that message's id. -/
theorem processOne_events_id (env : LoopEnv) (msg : Message) :
    ∀ e ∈ processOne env msg, e.idOf = msg.message_id := by
  intro e he
  rw [processOne_eq] at he
  rcases List.mem_append.mp he with hb | hs
  · rcases processBody_enum env msg with h | h | h | h | h | h <;>
      rw [h] at hb <;> simp at hb <;>
      first
        | (rcases hb with rfl | rfl | rfl <;> rfl)
        | (rcases hb with rfl | rfl <;> rfl)
        | (subst hb; rfl)
  · split_ifs at hs <;> simp at hs <;>
      first
        | (rcases hs with rfl | rfl | rfl <;> rfl)
        | (rcases hs with rfl | rfl <;> rfl)
        | (subst hs; rfl)

/-- A batch emits no event for an id that none of its messages carries. -/
theorem processBatch_filter_absent (env : LoopEnv) (i : String) :
    ∀ msgs : List Message, (∀ m ∈ msgs, m.message_id ≠ i) →
      (processBatch env msgs).filter (fun e => e.idOf == i) = [] := by
  intro msgs
  induction msgs with
  | nil => intro _; rfl
  | cons m rest ih =>
    intro h
    rw [processBatch, List.filter_append, ih (fun x hx => h x (List.mem_cons_of_mem m hx)),
      List.append_nil, List.filter_eq_nil_iff]
    intro e he
    have := processOne_events_id env m e he
    simp [this, h m (List.mem_cons_self m rest)]

/-- The body's events never include an error-handler invocation. -/
theorem errorHandlerCalled_not_in_body (env : LoopEnv) (msg : Message) :
    LoopEvent.errorHandlerCalled msg.message_id ∉ (processBody env msg).1 := by
  rcases processBody_enum env msg with h | h | h | h | h | h <;> rw [h] <;> simp

/-- A body that completes acknowledged its message. -/
theorem processBody_ok_acked (env : LoopEnv) (msg : Message)
    (hok : (processBody env msg).2 = false) :
    LoopEvent.acked msg.message_id ∈ (processBody env msg).1 := by
  rcases processBody_enum env msg with h | h | h | h | h | h <;>
    rw [h] at hok ⊢ <;> simp_all

/-- A body that completes with a reply applicable sent the reply. -/
theorem processBody_ok_replySent (env : LoopEnv) (msg : Message)
    (hok : (processBody env msg).2 = false)
    (happ : replyApplicable env msg = true) :
    LoopEvent.replySent msg.message_id ∈ (processBody env msg).1 := by
  unfold replyApplicable at happ
  unfold processBody processTail at hok ⊢
  revert hok happ
  cases hh : env.handler with
  | none => intro hok happ; simp at happ
  | some h =>
    cases hr : h msg with
    | raises => intro hok happ; simp [hr] at happ
    | ok resp =>
      intro hok happ
      simp only [hr] at happ hok ⊢
      rw [if_pos happ] at hok ⊢
      split_ifs at hok ⊢ <;> simp_all

/-- Within a batch of pairwise-distinct ids, the events carrying one message's
id are exactly the events of processing that message alone. -/
theorem processBatch_filter_mem (env : LoopEnv) :
    ∀ msgs : List Message, (msgs.map Message.message_id).Nodup →
      ∀ m ∈ msgs,
        (processBatch env msgs).filter (fun e => e.idOf == m.message_id) =
          processOne env m := by
  intro msgs
  induction msgs with
  | nil => intro _ m hm; cases hm
  | cons x rest ih =>
    intro hnd m hm
    rw [List.map_cons, List.nodup_cons] at hnd
    rw [processBatch, List.filter_append]
    rcases List.mem_cons.mp hm with rfl | hmem
    · have h1 : (processOne env m).filter (fun e => e.idOf == m.message_id) =
          processOne env m := by
        rw [List.filter_eq_self]
        intro e he
        simp [processOne_events_id env m e he]
      have h2 : (processBatch env rest).filter (fun e => e.idOf == m.message_id) = [] := by
        apply processBatch_filter_absent
        intro m2 hm2 heq
        exact hnd.1 (heq ▸ List.mem_map_of_mem Message.message_id hm2)
      rw [h1, h2, List.append_nil]
    · have hne : x.message_id ≠ m.message_id := by
        intro heq
        exact hnd.1 (heq ▸ List.mem_map_of_mem Message.message_id hmem)
      have h1 : (processOne env x).filter (fun e => e.idOf == m.message_id) = [] := by
        rw [List.filter_eq_nil_iff]
        intro e he
        simp [processOne_events_id env x e he, hne]
      rw [h1, List.nil_append]
      exact ih hnd.2 m hmem

/-- C8: fault isolation of the delivery loop.  For a polled batch with
pairwise-distinct message ids and a registered error handler: the events for
each message are exactly those of processing it alone (so one message's
failure — handler exception, reply-send failure or acknowledge failure — never
aborts or affects the others and never ends the iteration); a message whose
body raises triggers exactly one error-handler invocation; a message whose
body completes is acknowledged, with a reply sent when applicable. -/
theorem loop_fault_isolation (env : LoopEnv) (msgs : List Message)
    (hnd : (msgs.map Message.message_id).Nodup)
    (heh : env.hasErrorHandler = true) :
    ∀ m ∈ msgs,
      ((processBatch env msgs).filter (fun e => e.idOf == m.message_id) =
        processOne env m) ∧
      ((processBody env m).2 = true →
        (processOne env m).count (.errorHandlerCalled m.message_id) = 1) ∧
      ((processBody env m).2 = false →
        .acked m.message_id ∈ processOne env m ∧
        (replyApplicable env m = true →
          .replySent m.message_id ∈ processOne env m)) := by
  intro m hm
  refine ⟨processBatch_filter_mem env msgs hnd m hm, ?_, ?_⟩
  · intro hraise
    rw [processOne_eq, List.count_append, hraise, if_pos rfl, heh]
    rw [List.count_eq_zero.mpr (errorHandlerCalled_not_in_body env m)]
    cases env.errorHandlerRaises <;> simp [List.count_cons]
  · intro hok
    rw [processOne_eq]
    refine ⟨List.mem_append_left _ (processBody_ok_acked env m hok), ?_⟩
    intro happ
    exact List.mem_append_left _ (processBody_ok_replySent env m hok happ)

/-- C8 witness: a batch of three messages where the handler raises exactly on
message 2: messages 1 and 3 are acknowledged (1 also replied to), message 3's
events are untouched by 2's failure, and the error handler runs exactly once
for message 2. -/
theorem loop_fault_isolation_witness :
    ([polledMsg "m1", polledMsg "m2", polledMsg "m3"].map Message.message_id).Nodup ∧
    (processBody loopEnvRaisesOn2 (polledMsg "m2")).2 = true ∧
    (processOne loopEnvRaisesOn2 (polledMsg "m2")).count
      (.errorHandlerCalled (polledMsg "m2").message_id) = 1 ∧
    LoopEvent.acked (polledMsg "m1").message_id ∈
      processOne loopEnvRaisesOn2 (polledMsg "m1") ∧
    LoopEvent.replySent (polledMsg "m1").message_id ∈
      processOne loopEnvRaisesOn2 (polledMsg "m1") ∧
    LoopEvent.acked (polledMsg "m3").message_id ∈
      processOne loopEnvRaisesOn2 (polledMsg "m3") ∧
    (processBatch loopEnvRaisesOn2
        [polledMsg "m1", polledMsg "m2", polledMsg "m3"]).filter
        (fun e => e.idOf == (polledMsg "m3").message_id) =
      processOne loopEnvRaisesOn2 (polledMsg "m3") := by
  have hnd : ([polledMsg "m1", polledMsg "m2", polledMsg "m3"].map
      Message.message_id).Nodup := by decide
  have h := loop_fault_isolation loopEnvRaisesOn2
    [polledMsg "m1", polledMsg "m2", polledMsg "m3"] hnd rfl
  have h1 := h (polledMsg "m1") (List.mem_cons_self _ _)
  have h2 := h (polledMsg "m2") (List.mem_cons_of_mem _ (List.mem_cons_self _ _))
  have h3 := h (polledMsg "m3")
    (List.mem_cons_of_mem _ (List.mem_cons_of_mem _ (List.mem_cons_self _ _)))
  exact ⟨hnd, rfl, h2.2.1 rfl, (h1.2.2 rfl).1, (h1.2.2 rfl).2 rfl,
    (h3.2.2 rfl).1, h3.1⟩

/-! ## C6: the size quota of `send` -/

theorem utf8Len_append (a b : List Char) : utf8Len (a ++ b) = utf8Len a + utf8Len b := by
  simp [utf8Len]

theorem utf8Len_cons (c : Char) (l : List Char) :
    utf8Len (c :: l) = c.utf8Size + utf8Len l := by
  simp [utf8Len]

theorem charSize_comma : ','.utf8Size = 1 := rfl

theorem charSize_space : ' '.utf8Size = 1 := rfl

theorem charSize_colon : ':'.utf8Size = 1 := rfl

theorem charSize_lf : '\n'.utf8Size = 1 := rfl

theorem charSize_lbrack : '['.utf8Size = 1 := rfl

theorem charSize_rbrack : ']'.utf8Size = 1 := rfl

theorem charSize_lbrace : lbrace.utf8Size = 1 := rfl

theorem charSize_rbrace : rbrace.utf8Size = 1 := rfl

theorem utf8Len_nlIndent (level : ℕ) : utf8Len (nlIndent level) = 1 + 2 * level := by
  simp [nlIndent, utf8Len, List.map_replicate, charSize_lf, charSize_space]

/-- Item for item, the compact array tail is no longer than the indented one. -/
theorem compactArrTail_le (xs : List Json) (level : ℕ)
    (h : ∀ x ∈ xs, ∀ lv, utf8Len (dumpsCompact x) ≤ utf8Len (dumpsIndent lv x)) :
    utf8Len (dumpsCompactArrTail xs) ≤ utf8Len (dumpsIndentArrTail level xs) := by
  induction xs with
  | nil => simp [dumpsCompactArrTail, dumpsIndentArrTail]
  | cons x xs ih =>
    have hx := h x (List.mem_cons_self _ _) level
    have ht := ih fun y hy => h y (List.mem_cons_of_mem _ hy)
    simp only [dumpsCompactArrTail, dumpsIndentArrTail, utf8Len_append, utf8Len_cons,
      utf8Len_nlIndent, charSize_comma, charSize_space]
    omega

/-- Item for item, the compact object tail is no longer than the indented one. -/
theorem compactObjTail_le (fs : List (String × Json)) (level : ℕ)
    (h : ∀ kv ∈ fs, ∀ lv, utf8Len (dumpsCompact kv.2) ≤ utf8Len (dumpsIndent lv kv.2)) :
    utf8Len (dumpsCompactObjTail fs) ≤ utf8Len (dumpsIndentObjTail level fs) := by
  induction fs with
  | nil => simp [dumpsCompactObjTail, dumpsIndentObjTail]
  | cons kv fs ih =>
    obtain ⟨k, v⟩ := kv
    have hv : utf8Len (dumpsCompact v) ≤ utf8Len (dumpsIndent level v) :=
      h (k, v) (List.mem_cons_self _ _) level
    have ht := ih fun y hy => h y (List.mem_cons_of_mem _ hy)
    simp only [dumpsCompactObjTail, dumpsIndentObjTail, utf8Len_append, utf8Len_cons,
      utf8Len_nlIndent, charSize_comma, charSize_space, charSize_colon]
    omega

/-- The compact rendering is never longer than the indented one (strong
induction on the size of the value). -/
theorem compact_le_indent_aux (n : ℕ) : ∀ v : Json, sizeOf v ≤ n →
    ∀ level, utf8Len (dumpsCompact v) ≤ utf8Len (dumpsIndent level v) := by
  induction n with
  | zero =>
    intro v hv
    cases v <;> simp at hv
  | succ n ih =>
    intro v hv level
    cases v with
    | null => simp [dumpsCompact, dumpsIndent]
    | bool b => simp [dumpsCompact, dumpsIndent]
    | int k => simp [dumpsCompact, dumpsIndent]
    | float q => simp [dumpsCompact, dumpsIndent]
    | str s => simp [dumpsCompact, dumpsIndent]
    | arr elems =>
      cases elems with
      | nil => simp [dumpsCompact, dumpsIndent]
      | cons x xs =>
        have hmem : ∀ y ∈ x :: xs, ∀ lv,
            utf8Len (dumpsCompact y) ≤ utf8Len (dumpsIndent lv y) := by
          intro y hy lv
          have hs := List.sizeOf_lt_of_mem hy
          simp at hs hv
          exact ih y (by omega) lv
        have hx := hmem x (List.mem_cons_self _ _) (level + 1)
        have ht := compactArrTail_le xs (level + 1)
          fun y hy => hmem y (List.mem_cons_of_mem _ hy)
        simp only [dumpsCompact, dumpsIndent, utf8Len_append, utf8Len_cons,
          utf8Len_nlIndent, charSize_lbrack, charSize_rbrack]
        omega
    | obj fields =>
      cases fields with
      | nil => simp [dumpsCompact, dumpsIndent]
      | cons kv fs =>
        obtain ⟨k, v⟩ := kv
        have hmem : ∀ y ∈ (k, v) :: fs, ∀ lv,
            utf8Len (dumpsCompact y.2) ≤ utf8Len (dumpsIndent lv y.2) := by
          intro y hy lv
          obtain ⟨k2, v2⟩ := y
          have hs := List.sizeOf_lt_of_mem hy
          simp at hs hv
          exact ih v2 (by omega) lv
        have hv2 : utf8Len (dumpsCompact v) ≤ utf8Len (dumpsIndent (level + 1) v) :=
          hmem (k, v) (List.mem_cons_self _ _) (level + 1)
        have ht := compactObjTail_le fs (level + 1)
          fun y hy => hmem y (List.mem_cons_of_mem _ hy)
        simp only [dumpsCompact, dumpsIndent, utf8Len_append, utf8Len_cons,
          utf8Len_nlIndent, charSize_lbrace, charSize_rbrace, charSize_colon,
          charSize_space, charSize_comma] at hv2 ⊢
        omega

/-- The compact rendering is never longer than the indented one. -/
theorem compact_le_indent (v : Json) (level : ℕ) :
    utf8Len (dumpsCompact v) ≤ utf8Len (dumpsIndent level v) :=
  compact_le_indent_aux (sizeOf v) v le_rfl level

/-- A message that validates has a nonempty sender. -/
theorem validate_sender_nonempty (m : Message) (hv : m.validate = .ok ()) :
    m.sender.isEmpty = false := by
  by_contra hc
  rw [Bool.not_eq_false] at hc
  rw [Message.validate, if_pos hc] at hv
  cases hv

/-- C6 counterexample: `send` measures the compact dump (agent.py 185) while
`size()` measures the `indent=2` dump (message.py 166-191); with the quota set
to this message's compact size, `size()` exceeds the quota yet `send` passes
its size check and proceeds to the network call. -/
theorem send_size_cex :
    sendWireSize msgSized < Message.size msgSized ∧
    sendPre "gw@local" (sendWireSize msgSized) msgSized = .ok msgSized := by
  exact ⟨by decide, by with_unfolding_all rfl⟩

/-- C6 (amended): for a message that validates, `send` raises the size error
before any network call exactly when the compact (default-separator)
serialization exceeds the configured maximum; otherwise the message proceeds
to submission.  That compact byte count is at most `sizeBytes()` — which
serializes with `indent=2` — but generally differs from it, so the quota is
not enforced against the value `sizeBytes()` returns. -/
theorem send_size_quota (m : Message) (S : ℕ) (addr : String)
    (hv : m.validate = .ok ()) :
    (sendPre addr S m = .error .messageTooLarge ↔ S < sendWireSize m) ∧
    (¬ S < sendWireSize m → sendPre addr S m = .ok m) ∧
    sendWireSize m ≤ Message.size m := by
  have hs := validate_sender_nonempty m hv
  have hpre : sendPre addr S m =
      (if S < sendWireSize m then .error .messageTooLarge else .ok m) := by
    rw [sendPre]
    simp only [hs, Bool.false_eq_true, if_false, hv]
  refine ⟨?_, ?_, compact_le_indent m.to_dict.toJson 0⟩
  · rw [hpre]
    by_cases hS : S < sendWireSize m <;> simp [hS]
  · intro hS
    rw [hpre, if_neg hS]

/-- C6 witness: with the quota equal to this message's compact size, `send`
does not raise, and the compact size is bounded by `size()`. -/
theorem send_size_quota_witness :
    msgSized.validate = .ok () ∧
    sendPre "gw@local" (sendWireSize msgSized) msgSized = .ok msgSized ∧
    sendWireSize msgSized ≤ Message.size msgSized := by
  have h := send_size_quota msgSized (sendWireSize msgSized) "gw@local"
    (by with_unfolding_all rfl)
  exact ⟨by with_unfolding_all rfl, h.2.1 (by omega), h.2.2⟩

/-! ## C2: round-trip through `to_dict` / `from_dict` -/

theorem digitChar_spec : ∀ d, d < 10 → (digitChar d).isDigit = true ∧
    digitChar d ≠ '.' ∧ digitChar d ≠ '+' ∧ digitChar d ≠ 'Z' ∧
    parseDigit (digitChar d) = some d := by decide

theorem digitChar_mod_isDigit (n : ℕ) : (digitChar (n % 10)).isDigit = true :=
  (digitChar_spec _ (Nat.mod_lt _ (by norm_num))).1

theorem digitChar_mod_ne_dot (n : ℕ) : digitChar (n % 10) ≠ '.' :=
  (digitChar_spec _ (Nat.mod_lt _ (by norm_num))).2.1

theorem digitChar_mod_ne_plus (n : ℕ) : digitChar (n % 10) ≠ '+' :=
  (digitChar_spec _ (Nat.mod_lt _ (by norm_num))).2.2.1

theorem digitChar_mod_ne_upperZ (n : ℕ) : digitChar (n % 10) ≠ 'Z' :=
  (digitChar_spec _ (Nat.mod_lt _ (by norm_num))).2.2.2.1

theorem parseDigit_digitChar_mod (n : ℕ) :
    parseDigit (digitChar (n % 10)) = some (n % 10) :=
  (digitChar_spec _ (Nat.mod_lt _ (by norm_num))).2.2.2.2

theorem hasChar_append (c : Char) (a b : List Char) :
    hasChar c (a ++ b) = (hasChar c a || hasChar c b) := by simp [hasChar]

theorem hasChar_cons (c x : Char) (l : List Char) :
    hasChar c (x :: l) = (decide (x = c) || hasChar c l) := by simp [hasChar]

/-- The date-time part of an ISO string contains no '.', '+' or 'Z'. -/
theorem baseChars_free (d : PyDatetime) :
    hasChar '.' (baseChars d) = false ∧ hasChar '+' (baseChars d) = false ∧
    hasChar 'Z' (baseChars d) = false := by
  refine ⟨?_, ?_, ?_⟩ <;>
    simp [baseChars, pad4, pad2, hasChar, digitChar_mod_ne_dot, digitChar_mod_ne_plus,
      digitChar_mod_ne_upperZ]

/-- The microsecond field is six digits, free of '.', '+' and 'Z'. -/
theorem pad6_free (n : ℕ) :
    hasChar '.' (pad6 n) = false ∧ hasChar '+' (pad6 n) = false ∧
    hasChar 'Z' (pad6 n) = false ∧ (pad6 n).all Char.isDigit = true ∧
    (pad6 n).length = 6 := by
  refine ⟨?_, ?_, ?_, ?_, ?_⟩ <;>
    simp [pad6, pad2, hasChar, digitChar_mod_ne_dot, digitChar_mod_ne_plus,
      digitChar_mod_ne_upperZ, digitChar_mod_isDigit]

/-- The offset suffix contains no '.' or 'Z'. -/
theorem tzChars_free (o : Option ℤ) :
    hasChar '.' (tzChars o) = false ∧ hasChar 'Z' (tzChars o) = false := by
  cases o with
  | none => simp [tzChars, hasChar]
  | some off =>
    by_cases h : off < 0 <;>
      simp [tzChars, h, hasChar, pad2, digitChar_mod_ne_dot, digitChar_mod_ne_upperZ]

/-- A negative offset suffix contains no '+'. -/
theorem tzChars_neg_free_plus (off : ℤ) (h : off < 0) :
    hasChar '+' (tzChars (some off)) = false := by
  simp [tzChars, h, hasChar, pad2, digitChar_mod_ne_plus]

/-- The `HH:MM` part after the offset sign contains no '+'. -/
theorem tzTail_free_plus (a b : ℕ) :
    hasChar '+' (pad2 a ++ ':' :: pad2 b) = false := by
  simp [pad2, hasChar, digitChar_mod_ne_plus]

/-- `replace('Z', ...)` leaves a Z-free string unchanged. -/
theorem replaceZ_id (l : List Char) (h : hasChar 'Z' l = false) : replaceZ l = l := by
  induction l with
  | nil => rfl
  | cons c rest ih =>
    rw [hasChar_cons, Bool.or_eq_false_iff] at h
    rw [replaceZ, if_neg (of_decide_eq_false h.1), ih h.2]

/-- `rsplit('+', 1)` finds nothing in a '+'-free string. -/
theorem rsplitPlus_none (l : List Char) (h : hasChar '+' l = false) :
    rsplitPlus l = none := by
  induction l with
  | nil => rfl
  | cons c rest ih =>
    rw [hasChar_cons, Bool.or_eq_false_iff] at h
    rw [rsplitPlus, ih h.2]
    simp [of_decide_eq_false h.1]

/-- `rsplit('+', 1)` splits at the last '+'. -/
theorem rsplitPlus_last (xs ys : List Char) (h : hasChar '+' ys = false) :
    rsplitPlus (xs ++ '+' :: ys) = some (xs, ys) := by
  induction xs with
  | nil => rw [List.nil_append, rsplitPlus, rsplitPlus_none ys h]; simp
  | cons c rest ih => rw [List.cons_append, rsplitPlus, ih]

/-- `split('.')` into exactly two parts splits at the only dot. -/
theorem splitDotPair_split (xs ys : List Char) (hx : hasChar '.' xs = false)
    (hy : hasChar '.' ys = false) :
    splitDotPair (xs ++ '.' :: ys) = some (xs, ys) := by
  induction xs with
  | nil => rw [List.nil_append, splitDotPair, if_pos rfl, hy]; rfl
  | cons c rest ih =>
    rw [hasChar_cons, Bool.or_eq_false_iff] at hx
    rw [List.cons_append, splitDotPair, if_neg (of_decide_eq_false hx.1), ih hx.2]
    rfl

/-- `takeWhile`/`dropWhile` across an all-satisfying prefix followed by a list
whose head fails the predicate. -/
theorem takeWhile_all_append (p : Char → Bool) (a b : List Char)
    (ha : a.all p = true) (hb : ∀ x, b.head? = some x → p x = false) :
    (a ++ b).takeWhile p = a ∧ (a ++ b).dropWhile p = b := by
  induction a with
  | nil =>
    simp only [List.nil_append]
    cases b with
    | nil => simp
    | cons x bs =>
      have := hb x rfl
      simp [List.takeWhile_cons, List.dropWhile_cons, this]
  | cons c rest ih =>
    rw [List.all_cons, Bool.and_eq_true] at ha
    have h2 := ih ha.2
    simp [List.takeWhile_cons, List.dropWhile_cons, ha.1, h2.1, h2.2]

/-- Two-digit parsing inverts two-digit printing. -/
theorem digit2_pad2 (n : ℕ) (h : n < 100) :
    digit2 (digitChar (n / 10 % 10)) (digitChar (n % 10)) = some n := by
  simp [digit2, parseDigit_digitChar_mod]
  omega

/-- Six-digit parsing inverts the microsecond field. -/
theorem digitsVal_pad6 (n : ℕ) (h : n < 1000000) : digitsVal (pad6 n) = some n := by
  simp [digitsVal, pad6, pad2, List.foldlM, parseDigit_digitChar_mod]
  omega

theorem parseTzTail_nil : parseTzTail [] = some none := rfl

/-- Offset parsing inverts offset printing for offsets below 100 hours. -/
theorem parseTzTail_tzChars (off : ℤ) (h : off.natAbs < 6000) :
    parseTzTail (tzChars (some off)) = some (some off) := by
  have h60 : off.natAbs / 60 < 100 := by omega
  have h2 := digit2_pad2 (off.natAbs / 60) h60
  have h3 := digit2_pad2 (off.natAbs % 60) (by omega)
  by_cases hneg : off < 0
  · rw [tzChars, if_pos hneg]
    simp only [pad2, List.cons_append, List.nil_append]
    rw [parseTzTail]
    simp only [pad2] at h2 h3
    simp [h2, h3]
    simp only [Int.abs_eq_natAbs]
    omega
  · rw [tzChars, if_neg hneg]
    simp only [pad2, List.cons_append, List.nil_append]
    rw [parseTzTail]
    simp only [pad2] at h2 h3
    simp [h2, h3]
    simp only [Int.abs_eq_natAbs]
    omega

/-- A decimal digit is not one of the special timestamp characters. -/
theorem isDigit_ne_special (c : Char) (h : c.isDigit = true) :
    c ≠ '.' ∧ c ≠ '+' ∧ c ≠ 'Z' := by
  refine ⟨?_, ?_, ?_⟩ <;> rintro rfl <;> exact absurd h (by decide)

/-- An all-digit run is free of the special timestamp characters. -/
theorem digits_free (l : List Char) (h : l.all Char.isDigit = true) :
    hasChar '.' l = false ∧ hasChar '+' l = false ∧ hasChar 'Z' l = false := by
  rw [List.all_eq_true] at h
  refine ⟨?_, ?_, ?_⟩ <;>
  · simp only [hasChar, List.any_eq_false, decide_eq_true_eq]
    intro c hc
    have hd := isDigit_ne_special c (h c hc)
    rintro rfl
    simp_all

/-- The offset suffix never starts with a digit. -/
theorem tzChars_head_not_digit (o : Option ℤ) :
    ∀ x, (tzChars o).head? = some x → Char.isDigit x = false := by
  cases o with
  | none => intro x hx; simp [tzChars] at hx
  | some off =>
    intro x hx
    by_cases hneg : off < 0
    · rw [tzChars, if_pos hneg] at hx
      obtain rfl : '-' = x := by simpa using hx
      decide
    · rw [tzChars, if_neg hneg] at hx
      obtain rfl : '+' = x := by simpa using hx
      decide

/-- Fractional-second parsing inverts a six-digit fraction followed by the
offset suffix. -/
theorem parseFracTz_frac (micro : ℕ) (hm : micro < 1000000) (o : Option ℤ)
    (ho : ∀ off ∈ o, off.natAbs < 6000) :
    parseFracTz ('.' :: (pad6 micro ++ tzChars o)) = some (micro, o) := by
  have hfree := pad6_free micro
  have htake := takeWhile_all_append Char.isDigit (pad6 micro) (tzChars o)
    hfree.2.2.2.1 (tzChars_head_not_digit o)
  rw [parseFracTz, if_pos rfl]
  simp only [htake.1, htake.2, hfree.2.2.2.2]
  norm_num
  rw [digitsVal_pad6 micro hm]
  cases o with
  | none =>
    simp [tzChars, parseTzTail_nil]
  | some off =>
    simp [parseTzTail_tzChars off (ho off rfl)]

/-- Fractional-second parsing of a bare offset suffix yields zero microseconds. -/
theorem parseFracTz_tzOnly (o : Option ℤ) (ho : ∀ off ∈ o, off.natAbs < 6000) :
    parseFracTz (tzChars o) = some (0, o) := by
  cases o with
  | none => rfl
  | some off =>
    by_cases hneg : off < 0
    · rw [tzChars, if_pos hneg]
      rw [parseFracTz, if_neg (by decide)]
      rw [show ('-' :: (pad2 (off.natAbs / 60) ++ ':' :: pad2 (off.natAbs % 60))) =
        tzChars (some off) from by rw [tzChars, if_pos hneg]]
      simp [parseTzTail_tzChars off (ho off rfl)]
    · rw [tzChars, if_neg hneg]
      rw [parseFracTz, if_neg (by decide)]
      rw [show ('+' :: (pad2 (off.natAbs / 60) ++ ':' :: pad2 (off.natAbs % 60))) =
        tzChars (some off) from by rw [tzChars, if_neg hneg]]
      simp [parseTzTail_tzChars off (ho off rfl)]

/-- Two-digit parsing of any pair of printed digits. -/
theorem digit2_mods (a b : ℕ) :
    digit2 (digitChar (a % 10)) (digitChar (b % 10)) =
      some (a % 10 * 10 + b % 10) := by
  simp [digit2, parseDigit_digitChar_mod]

/-- Parsing a printed date-time prefix followed by any correctly-parsing
fraction/offset tail recovers the datetime. -/
theorem fromisoformat_base (d : PyDatetime) (hwf : d.wf) (tail : List Char)
    (htail : parseFracTz tail = some (d.microsecond, d.utcoffsetMinutes)) :
    fromisoformatChars (baseChars d ++ tail) = some d := by
  obtain ⟨yr, mo, da, hr, mi, se, mic, tzo⟩ := d
  obtain ⟨hy, hmo, hd, hh, hmi, hs, _, _⟩ := hwf
  simp only at htail
  simp only [baseChars, pad4, pad2, List.cons_append, List.append_assoc,
    List.nil_append]
  rw [fromisoformatChars]
  simp only [digit2_mods, htail, Option.bind_eq_bind, Option.some_bind]
  dsimp only at hy hmo hd hh hmi hs
  simp only [Option.some.injEq, PyDatetime.mk.injEq, and_true]
  refine ⟨by omega, by omega, by omega, by omega, by omega, by omega⟩

/-- Parsing inverts printing for a datetime with a nonzero microsecond field. -/
theorem fromisoformat_iso_frac (d : PyDatetime) (hwf : d.wf)
    (hm : d.microsecond ≠ 0) :
    fromisoformatChars (isoformatChars d) = some d := by
  rw [isoformatChars, if_neg hm, List.append_assoc]
  exact fromisoformat_base d hwf _
    (parseFracTz_frac d.microsecond hwf.2.2.2.2.2.2.1 d.utcoffsetMinutes
      hwf.2.2.2.2.2.2.2)

/-- Parsing inverts printing for a datetime with microsecond zero. -/
theorem fromisoformat_iso_nofrac (d : PyDatetime) (hwf : d.wf)
    (hm : d.microsecond = 0) :
    fromisoformatChars (isoformatChars d) = some d := by
  rw [isoformatChars, if_pos hm, List.append_nil]
  refine fromisoformat_base d hwf _ ?_
  rw [hm]
  exact parseFracTz_tzOnly d.utcoffsetMinutes hwf.2.2.2.2.2.2.2

theorem hasChar_nil (c : Char) : hasChar c [] = false := rfl

/-- `from_dict`'s normalization leaves a printed `isoformat` string unchanged:
the fraction, when present, is already at most six digits. -/
theorem normalize_iso_id (d : PyDatetime) :
    normalizeTimestampStr (isoformatChars d) = some (isoformatChars d) := by
  have hbase := baseChars_free d
  have htzf := tzChars_free d.utcoffsetMinutes
  have hz : hasChar 'Z' (isoformatChars d) = false := by
    rw [isoformatChars, hasChar_append, hasChar_append, hbase.2.2, htzf.2]
    by_cases hm : d.microsecond = 0
    · simp [hm, hasChar_nil]
    · simp [hm, hasChar_cons, (pad6_free d.microsecond).2.2.1]
  rw [normalizeTimestampStr]
  simp only [replaceZ_id _ hz]
  by_cases hm : d.microsecond = 0
  · have hdot : hasChar '.' (isoformatChars d) = false := by
      rw [isoformatChars, hasChar_append, hasChar_append, hbase.1, htzf.1]
      simp [hm, hasChar_nil]
    rw [hdot]
    simp
  · cases ho : d.utcoffsetMinutes with
    | none =>
      have hplus : hasChar '+' (isoformatChars d) = false := by
        rw [isoformatChars, ho, hasChar_append, hasChar_append, hbase.2.1]
        simp [hm, hasChar_cons, (pad6_free d.microsecond).2.1, tzChars, hasChar_nil]
      rw [hplus]
      simp
    | some off =>
      by_cases hneg : off < 0
      · have hplus : hasChar '+' (isoformatChars d) = false := by
          rw [isoformatChars, ho, hasChar_append, hasChar_append, hbase.2.1,
            tzChars_neg_free_plus off hneg]
          simp [hm, hasChar_cons, (pad6_free d.microsecond).2.1]
        rw [hplus]
        simp
      · have hshape : isoformatChars d =
            (baseChars d ++ '.' :: pad6 d.microsecond) ++
              '+' :: (pad2 (off.natAbs / 60) ++ ':' :: pad2 (off.natAbs % 60)) := by
          rw [isoformatChars, ho, if_neg hm, tzChars, if_neg hneg]
        rw [hshape]
        have hdotA : hasChar '.' (baseChars d ++ '.' :: pad6 d.microsecond) = true := by
          rw [hasChar_append, hasChar_cons]
          simp
        have hguard_dot : hasChar '.'
            ((baseChars d ++ '.' :: pad6 d.microsecond) ++
              '+' :: (pad2 (off.natAbs / 60) ++ ':' :: pad2 (off.natAbs % 60))) = true := by
          rw [hasChar_append, hdotA]
          rfl
        have hguard_plus : hasChar '+'
            ((baseChars d ++ '.' :: pad6 d.microsecond) ++
              '+' :: (pad2 (off.natAbs / 60) ++ ':' :: pad2 (off.natAbs % 60))) = true := by
          rw [hasChar_append, hasChar_cons]
          simp
        rw [hguard_dot, hguard_plus]
        simp only [Bool.and_self, if_true]
        rw [rsplitPlus_last _ _ (tzTail_free_plus _ _)]
        dsimp only
        rw [hdotA]
        simp only [if_true]
        rw [splitDotPair_split (baseChars d) (pad6 d.microsecond) hbase.1
          (pad6_free d.microsecond).1]
        simp only [Option.map_some']
        rw [show (pad6 d.microsecond).take 6 = pad6 d.microsecond from by
          rw [← (pad6_free d.microsecond).2.2.2.2]
          exact List.take_length _]
        simp [List.append_assoc]

/-- `from_dict`'s normalization truncates an over-precise fraction before a
'+'-signed offset down to its first six digits. -/
theorem normalize_overprecise (d : PyDatetime) (off : ℤ) (hneg : ¬ off < 0)
    (extra : List Char) (hex : extra.all Char.isDigit = true) :
    normalizeTimestampStr (baseChars d ++ '.' :: (pad6 d.microsecond ++ extra) ++
        tzChars (some off)) =
      some (baseChars d ++ '.' :: (pad6 d.microsecond ++
        '+' :: (pad2 (off.natAbs / 60) ++ ':' :: pad2 (off.natAbs % 60)))) := by
  have hbase := baseChars_free d
  have hexf := digits_free extra hex
  have hp6 := pad6_free d.microsecond
  have hshape : baseChars d ++ '.' :: (pad6 d.microsecond ++ extra) ++
      tzChars (some off) =
      (baseChars d ++ '.' :: (pad6 d.microsecond ++ extra)) ++
        '+' :: (pad2 (off.natAbs / 60) ++ ':' :: pad2 (off.natAbs % 60)) := by
    rw [tzChars, if_neg hneg]
  rw [hshape]
  have hfrac_dot : hasChar '.' (pad6 d.microsecond ++ extra) = false := by
    rw [hasChar_append, hp6.1, hexf.1]
    rfl
  have hz : hasChar 'Z'
      ((baseChars d ++ '.' :: (pad6 d.microsecond ++ extra)) ++
        '+' :: (pad2 (off.natAbs / 60) ++ ':' :: pad2 (off.natAbs % 60))) = false := by
    rw [hasChar_append, hasChar_append, hasChar_cons, hasChar_append, hasChar_cons,
      hbase.2.2, hp6.2.2.1, hexf.2.2]
    simp [pad2, hasChar_cons, digitChar_mod_ne_upperZ, hasChar_nil]
  rw [normalizeTimestampStr]
  simp only [replaceZ_id _ hz]
  have hdotA : hasChar '.' (baseChars d ++ '.' :: (pad6 d.microsecond ++ extra)) =
      true := by
    rw [hasChar_append, hasChar_cons]
    simp
  have hguard_dot : hasChar '.'
      ((baseChars d ++ '.' :: (pad6 d.microsecond ++ extra)) ++
        '+' :: (pad2 (off.natAbs / 60) ++ ':' :: pad2 (off.natAbs % 60))) = true := by
    rw [hasChar_append, hdotA]
    rfl
  have hguard_plus : hasChar '+'
      ((baseChars d ++ '.' :: (pad6 d.microsecond ++ extra)) ++
        '+' :: (pad2 (off.natAbs / 60) ++ ':' :: pad2 (off.natAbs % 60))) = true := by
    rw [hasChar_append, hasChar_cons]
    simp
  rw [hguard_dot, hguard_plus]
  simp only [Bool.and_self, if_true]
  rw [rsplitPlus_last _ _ (tzTail_free_plus _ _)]
  dsimp only
  rw [hdotA]
  simp only [if_true]
  rw [splitDotPair_split (baseChars d) (pad6 d.microsecond ++ extra) hbase.1 hfrac_dot]
  simp only [Option.map_some']
  rw [show (pad6 d.microsecond ++ extra).take 6 = pad6 d.microsecond from by
    rw [← (pad6_free d.microsecond).2.2.2.2]
    exact List.take_left _ _]

/-- The full `from_dict` timestamp handling inverts `isoformat`. -/
theorem parseTimestamp_iso (d : PyDatetime) (hwf : d.wf) :
    parseTimestamp (isoformatChars d) = some d := by
  simp only [parseTimestamp, normalize_iso_id d, Option.bind_eq_bind, Option.some_bind]
  by_cases hm : d.microsecond = 0
  · exact fromisoformat_iso_nofrac d hwf hm
  · exact fromisoformat_iso_frac d hwf hm

/-- The full `from_dict` timestamp handling tolerates extra fractional digits
beyond six before a '+'-signed offset, truncating without changing the
represented second (it recovers the datetime whose microseconds are the first
six digits). -/
theorem parseTimestamp_overprecise (d : PyDatetime) (off : ℤ) (extra : List Char)
    (hwf : d.wf) (ho : d.utcoffsetMinutes = some off) (hpos : 0 ≤ off)
    (hex : extra.all Char.isDigit = true) :
    parseTimestamp (baseChars d ++ '.' :: (pad6 d.microsecond ++ extra) ++
      tzChars d.utcoffsetMinutes) = some d := by
  have hneg : ¬ off < 0 := by omega
  rw [ho]
  simp only [parseTimestamp, normalize_overprecise d off hneg extra hex,
    Option.bind_eq_bind, Option.some_bind]
  have htz : '+' :: (pad2 (off.natAbs / 60) ++ ':' :: pad2 (off.natAbs % 60)) =
      tzChars (some off) := by
    rw [tzChars, if_neg hneg]
  have hfrac : '.' :: (pad6 d.microsecond ++
      '+' :: (pad2 (off.natAbs / 60) ++ ':' :: pad2 (off.natAbs % 60))) =
      '.' :: (pad6 d.microsecond ++ tzChars (some off)) := by
    rw [htz]
  rw [hfrac]
  refine fromisoformat_base d hwf _ ?_
  rw [ho]
  exact parseFracTz_frac d.microsecond hwf.2.2.2.2.2.2.1 (some off)
    (fun o2 ho2 => by
      obtain rfl : off = o2 := by simpa using ho2
      have := hwf.2.2.2.2.2.2.2 off (by rw [ho]; rfl)
      exact this)

/-- A printed timestamp is never the empty string. -/
theorem isoformatChars_not_empty (d : PyDatetime) :
    (isoformatChars d).isEmpty = false := by
  simp [isoformatChars, baseChars, pad4, pad2]

/-- C2 counterexample: a validated message whose payload is present but the
empty dict — a populated field that is falsy — is dropped by `to_dict`'s
truthiness guards, so the round trip does not return an equal message. -/
theorem roundtrip_cex :
    msgEmptyPayload.validate = .ok () ∧
    msgEmptyPayload.payload = some (.obj []) ∧
    Message.from_dict "gid" "gkey" epochTs msgEmptyPayload.to_dict ≠
      some msgEmptyPayload := by
  refine ⟨by with_unfolding_all rfl, rfl, fun h => ?_⟩
  have h2 : (Message.from_dict "gid" "gkey" epochTs msgEmptyPayload.to_dict).map
      Message.payload = some none := by with_unfolding_all rfl
  rw [h] at h2
  simp [msgEmptyPayload] at h2

/-- C2 (amended): (1) for every message that validates, whose present optional
fields are truthy (non-empty), and whose timestamp fields lie in their
`datetime` ranges, `from_dict (to_dict m)` rebuilds exactly `m`, the timestamp
string round-tripping through `isoformat`/`fromisoformat`; (2) `from_dict`
tolerates a transport timestamp carrying more than six fractional-second
digits before a `+HH:MM` offset, truncating to microseconds without changing
the represented second and without failing.  (As stated the claim fails for
present-but-falsy optional fields such as an empty payload dict, which
`to_dict` omits, and the truncation rewrite only fires when the string
contains a '+'.) -/
theorem message_roundtrip :
    (∀ (m : Message) (gen_id gen_key : String) (now : PyDatetime),
      m.validate = .ok () → m.timestamp.wf →
      (∀ s ∈ m.subject, s.isEmpty = false) →
      (∀ p ∈ m.payload, p.truthy = true) →
      (∀ s ∈ m.schema, s.isEmpty = false) →
      (∀ s ∈ m.in_reply_to, s.isEmpty = false) →
      (∀ x ∈ m.headers, x.truthy = true) →
      (∀ l ∈ m.attachments, l.isEmpty = false) →
      Message.from_dict gen_id gen_key now m.to_dict = some m) ∧
    (∀ (d : PyDatetime) (off : ℤ) (extra : List Char),
      d.wf → d.utcoffsetMinutes = some off → 0 ≤ off →
      extra.all Char.isDigit = true →
      parseTimestamp (baseChars d ++ '.' :: (pad6 d.microsecond ++ extra) ++
        tzChars d.utcoffsetMinutes) = some d) := by
  constructor
  · intro m gen_id gen_key now hv hwf hsub hpay hsch hrep hhdr hatt
    have hsubeq : (Message.to_dict m).subject = m.subject := by
      simp only [Message.to_dict]
      cases h : m.subject with
      | none => rfl
      | some s => simp [hsub s (Option.mem_def.mpr h)]
    have hpayeq : (Message.to_dict m).payload = m.payload := by
      simp only [Message.to_dict]
      cases h : m.payload with
      | none => rfl
      | some p => simp [hpay p (Option.mem_def.mpr h)]
    have hscheq : (Message.to_dict m).schema = m.schema := by
      simp only [Message.to_dict]
      cases h : m.schema with
      | none => rfl
      | some v => simp [hsch v (Option.mem_def.mpr h)]
    have hrepeq : (Message.to_dict m).in_reply_to = m.in_reply_to := by
      simp only [Message.to_dict]
      cases h : m.in_reply_to with
      | none => rfl
      | some v => simp [hrep v (Option.mem_def.mpr h)]
    have hhdreq : (Message.to_dict m).headers = m.headers := by
      simp only [Message.to_dict]
      cases h : m.headers with
      | none => rfl
      | some v => simp [hhdr v (Option.mem_def.mpr h)]
    have hatteq : (Message.to_dict m).attachments = m.attachments := by
      simp only [Message.to_dict]
      cases h : m.attachments with
      | none => rfl
      | some v => simp [hatt v (Option.mem_def.mpr h)]
    rw [Message.from_dict,
      show (Message.to_dict m).timestamp = some (isoformatChars m.timestamp) from rfl]
    simp only [isoformatChars_not_empty, Bool.false_eq_true, if_false,
      parseTimestamp_iso m.timestamp hwf, Option.bind_eq_bind, Option.some_bind,
      show (Message.to_dict m).sender = some m.sender from rfl,
      show (Message.to_dict m).recipients = some m.recipients from rfl,
      show (Message.to_dict m).version = some m.version from rfl,
      show (Message.to_dict m).message_id = some m.message_id from rfl,
      show (Message.to_dict m).idempotency_key = some m.idempotency_key from rfl,
      hsubeq, hpayeq, hscheq, hrepeq, hhdreq, hatteq, Option.getD_some]
    show (match m.validate with
      | .ok _ => some m
      | .error _ => none) = some m
    rw [hv]
  · intro d off extra hwf ho hpos hex
    exact parseTimestamp_overprecise d off extra hwf ho hpos hex

/-- C2 witness: a concrete validated message round-trips, and a concrete
timestamp with nine fractional digits parses to the truncated microseconds. -/
theorem message_roundtrip_witness :
    msgSized.validate = .ok () ∧
    Message.from_dict "gid" "gkey" epochTs msgSized.to_dict = some msgSized ∧
    parseTimestamp
      (baseChars ⟨2024, 1, 15, 10, 30, 0, 123456, some 0⟩ ++
        '.' :: (pad6 123456 ++ ['7', '8', '9']) ++ tzChars (some 0)) =
      some ⟨2024, 1, 15, 10, 30, 0, 123456, some 0⟩ := by
  have h := message_roundtrip
  refine ⟨by with_unfolding_all rfl, ?_, ?_⟩
  · exact h.1 msgSized "gid" "gkey" epochTs (by with_unfolding_all rfl) (by decide)
      (by simp only [msgSized]; intro s hs; cases hs; with_unfolding_all rfl)
      (by simp [msgSized, Json.truthy]) (by simp [msgSized])
      (by simp [msgSized]) (by simp [msgSized]) (by simp [msgSized])
  · exact h.2 ⟨2024, 1, 15, 10, 30, 0, 123456, some 0⟩ 0 ['7', '8', '9']
      (by decide) rfl (by decide) (by decide)

end AMTP
